import Mathlib

/-!
Verification development for a single-file chat-driven finance ledger front
end (a Telegram bot, `main.py`).  The program's core — the per-user dialogue
state machine built on a `ConversationHandler`, the free-text amount parser
`parse_amount`, and the backend gateway `gas_request` — is shallowly embedded
below, and the theorems at the end of the file settle the specification
claims against this embedding.

Modelling conventions:

* Python floats are idealised as exact rationals (`ℚ`).  `round(val, 2)`
  becomes exact round-half-to-even on rationals (`pyRound2`).  All concrete
  values exercised by the claims are exactly representable in binary
  floating point and away from ties, so the idealisation agrees with the
  source on every input a claim mentions.  (The idealisation is more
  permissive than CPython only for inputs of magnitude ≥ ~1e308, where
  `float` overflows to `inf` and `round` raises.)
* Message texts that are string literals in the source are kept verbatim as
  `String` literals; texts that the source formats from backend data
  (reports, confirmations, main screens) are represented symbolically by
  `OutText` constructors carrying exactly the data the source formats,
  since no claim inspects the formatting itself.
* The source file defines the state constant `ST_EXP_PAYMENT_TYPE` in its
  state tuple but refers to it as `ST_PAYMENT_TYPE` at its two use sites
  (`amount_received` and the `build_app` states table); the two use sites
  agree with each other, so the embedding uses the single state
  `stExpPaymentType` for both.  (As shipped, the file would raise
  `NameError` in `build_app`; the dialogue semantics itself is unambiguous.)
* Telegram message ids are modelled by a per-session counter starting at 1,
  so that a stored `working_message_id` is never the Python-falsy `0`.
* `random.choice` over fixed acknowledgment phrase lists is not observable
  by any claim; the confirmation message is the symbolic
  `OutText.savedConfirm` carrying the draft it is formatted from.
-/

/-! ## Amount parser (`parse_amount`, main.py lines 262–295) -/

/-- Python `str.lower` restricted to the alphabets that can reach the
`к`/`k` suffix test: ASCII letters and the Cyrillic capitals range. -/
def pyLower (c : Char) : Char :=
  if 65 ≤ c.toNat ∧ c.toNat ≤ 90 then Char.ofNat (c.toNat + 32)
  else if 0x410 ≤ c.toNat ∧ c.toNat ≤ 0x42F then Char.ofNat (c.toNat + 32)
  else if c.toNat = 0x401 then Char.ofNat 0x451
  else c

/-- Python regex `\s` (the characters `re.sub(r"\s+", "", s)` removes),
covering the whitespace actually reachable from chat input. -/
def pyIsSpace (c : Char) : Bool :=
  c == ' ' || c == '\t' || c == '\n' || c == '\r' ||
  c.toNat == 11 || c.toNat == 12 || c.toNat == 0xA0

def isSep (c : Char) : Bool := c == ',' || c == '.'

/-- Numeric value of a digit string read left to right. -/
def decDigits (l : List Char) : ℕ :=
  l.foldl (fun a c => a * 10 + (c.toNat - 48)) 0

/-- Split a character list on `'.'`, like Python `str.split(".")`. -/
def splitOnDot : List Char → List (List Char)
  | [] => [[]]
  | c :: rest =>
      let r := splitOnDot rest
      if c = '.' then [] :: r
      else
        match r with
        | [] => [[c]]
        | h :: t => (c :: h) :: t

def allDigits (l : List Char) : Bool := l.all Char.isDigit

/-- Python `float()` on a string drawn from the alphabet `[0-9.\-]`:
an optional leading minus, then digits with at most one dot and at least
one digit.  Returns the exact rational value. -/
def pyFloat (l : List Char) : Option ℚ :=
  let neg : Bool := l.head? == some '-'
  let body := if neg then l.tail else l
  if body.contains '-' then none
  else
    match splitOnDot body with
    | [a] =>
        if a ≠ [] ∧ allDigits a = true then
          let v : ℚ := (decDigits a : ℚ)
          some (if neg then -v else v)
        else none
    | [a, b] =>
        if (a ≠ [] ∨ b ≠ []) ∧ allDigits a = true ∧ allDigits b = true then
          let v : ℚ := (decDigits a : ℚ) + (decDigits b : ℚ) / ((10 : ℚ) ^ b.length)
          some (if neg then -v else v)
        else none
    | _ => none

/-- Round half to even to the nearest integer, as CPython `round` does. -/
def roundHalfEven (q : ℚ) : ℤ :=
  let f := ⌊q⌋
  let r := q - f
  if r < 1/2 then f
  else if 1/2 < r then f + 1
  else if f % 2 = 0 then f else f + 1

/-- `round(val, 2)` idealised on exact rationals. -/
def pyRound2 (q : ℚ) : ℚ := (roundHalfEven (q * 100) : ℚ) / 100

/-- Final step of `parse_amount`: reject negatives, round to 2 places. -/
def finishAmount (v : ℚ) : Option ℚ :=
  if v < 0 then none else some (pyRound2 v)

/-- Lowercased input with all whitespace removed (`.strip().lower()` then
`re.sub(r"\s+", "", ·)`). -/
def stripLower (text : String) : List Char :=
  (text.data.map pyLower).filter (fun c => !(pyIsSpace c))

/-- Does the whitespace-free input end in the `к`/`k` thousands suffix? -/
def endsK (l : List Char) : Bool :=
  match l.getLast? with
  | some c => c == 'к' || c == 'k'
  | none => false

/-- The multiplier contributed by a trailing `к`/`k`. -/
def multOf (text : String) : ℚ :=
  if endsK (stripLower text) then 1000 else 1

/-- Index of the rightmost `,` or `.` (the `max(rfind(","), rfind("."))`
of the source). -/
def lastSepIdx (l : List Char) : Option ℕ :=
  (List.range l.length).foldl
    (fun acc i =>
      match l.get? i with
      | some c => if isSep c then some i else acc
      | none => acc)
    none

/-- Separator normalisation and character filtering of `parse_amount`:
with both `,` and `.` present the rightmost is the decimal separator and
all other occurrences of either are dropped; with only `,` present it
becomes `.`; finally everything outside `[0-9.\-]` is dropped. -/
def coreChars (text : String) : List Char :=
  let s0 := stripLower text
  let s1 := if endsK s0 then s0.dropLast else s0
  let hasC := s1.contains ','
  let hasD := s1.contains '.'
  let s2 :=
    if hasC ∧ hasD then
      match lastSepIdx s1 with
      | some i =>
          let pre := (s1.take i).filter (fun c => !(isSep c))
          let post := (s1.drop (i + 1)).filter (fun c => !(isSep c))
          pre ++ '.' :: post
      | none => s1
    else if hasC then s1.map (fun c => if c = ',' then '.' else c)
    else s1
  s2.filter (fun c => c.isDigit || c == '.' || c == '-')

/-- `parse_amount(text)` (main.py 262–295): normalise thousand separators,
decimal comma/dot and the `к`/`k` shorthand, parse, reject negatives,
round to 2 decimal places; `none` on anything unparseable. -/
def parse_amount (text : String) : Option ℚ :=
  if text = "" then none
  else
    match pyFloat (coreChars text) with
    | none => none
    | some v => finishAmount (v * multOf text)

/-! ## Backend gateway (`gas_request`, main.py lines 301–317) -/

/-- Backend data object.  Only the fields some handler actually reads by
key are modelled; each is `Option` because the backend JSON may omit it. -/
structure GasData where
  expenses : Option (List String) := none
  incomes : Option (List String) := none
  paymentTypes : Option (List String) := none
  deriving DecidableEq, Repr, Inhabited

def noData : GasData := {}

inductive ExcClass
  | timeoutError
  | runtimeError
  | keyError
  | indexError
  | typeError
  | nameError
  deriving DecidableEq, Repr

/-- A surfaced Python exception: its class and its message, which is all a
caller catching `Exception` can observe. -/
structure PyExc where
  cls : ExcClass
  msg : String
  deriving DecidableEq, Repr

/-- The backend's raw HTTP response as the gateway sees it: a timeout, a
non-JSON body, or a JSON object `{ok, error?, data?}` (`okFlag` is the
truthiness of `data.get("ok")`). -/
inductive RawResponse
  | timeout
  | badBody (txt : String)
  | js (okFlag : Bool) (error : Option String) (data : Option GasData)
  deriving DecidableEq, Repr

def nonJsonMsg : String := "GAS вернул не-JSON ответ"

/-- `data.get("error") or "GAS error"`: Python `or` replaces a missing or
falsy (empty) message by the default. -/
def orDefaultError (e : Option String) : String :=
  match e with
  | some s => if s = "" then "GAS error" else s
  | none => "GAS error"

/-- Response handling of `gas_request`: a timeout propagates as
`asyncio.TimeoutError`; a non-JSON body raises `RuntimeError` with a fixed
message; `ok` falsy raises `RuntimeError` with the backend message; on
success `data["data"]` is returned (raising `KeyError` if absent). -/
def gasRequest (r : RawResponse) : Except PyExc GasData :=
  match r with
  | .timeout => .error ⟨.timeoutError, ""⟩
  | .badBody _ => .error ⟨.runtimeError, nonJsonMsg⟩
  | .js okFlag e d =>
      if okFlag then
        match d with
        | some dd => .ok dd
        | none => .error ⟨.keyError, "data"⟩
      else .error ⟨.runtimeError, orDefaultError e⟩

/-- Commands sent to the backend, with their command-specific parameters. -/
inductive GasCmd
  | summary_month
  | get_last_transactions (limit : ℕ)
  | get_categories
  | get_all_balances
  | add (ty : Option String) (category : Option String) (amount : Option ℚ)
        (payment : Option String) (comment : String)
  | analysis_income (period : String)
  | analysis_expense (period : String)
  | compare_months
  | average_check
  | top_expenses
  | set_balance (amount : ℚ) (payment : String)
  | get_debts (dt : String)
  | set_debts (amount : ℚ) (dt : String)
  deriving DecidableEq, Repr

/-- JSON-ish values appearing in a request body. -/
inductive JVal
  | s (v : String)
  | i (v : ℤ)
  | q (v : ℚ)
  | n (v : ℕ)
  | null
  deriving DecidableEq, Repr

def optStr (o : Option String) : JVal :=
  match o with
  | some s => .s s
  | none => .null

def optQ (o : Option ℚ) : JVal :=
  match o with
  | some v => .q v
  | none => .null

/-- The command-specific part of a request body. -/
def encodeCmd (c : GasCmd) : List (String × JVal) :=
  match c with
  | .summary_month => [("cmd", .s "summary_month")]
  | .get_last_transactions lim => [("cmd", .s "get_last_transactions"), ("limit", .n lim)]
  | .get_categories => [("cmd", .s "get_categories")]
  | .get_all_balances => [("cmd", .s "get_all_balances")]
  | .add ty cat amt pt cm =>
      [("cmd", .s "add"), ("type", optStr ty), ("category", optStr cat),
       ("amount", optQ amt), ("payment_type", optStr pt), ("comment", .s cm)]
  | .analysis_income p => [("cmd", .s "analysis_income"), ("period", .s p)]
  | .analysis_expense p => [("cmd", .s "analysis_expense"), ("period", .s p)]
  | .compare_months => [("cmd", .s "compare_months")]
  | .average_check => [("cmd", .s "average_check")]
  | .top_expenses => [("cmd", .s "top_expenses")]
  | .set_balance amt pt =>
      [("cmd", .s "set_balance"), ("amount", .q amt), ("payment_type", .s pt)]
  | .get_debts dt => [("cmd", .s "get_debts"), ("debt_type", .s dt)]
  | .set_debts amt dt =>
      [("cmd", .s "set_debts"), ("amount", .q amt), ("debt_type", .s dt)]

/-- The full request body: `payload["user_id"] = user_id` is appended to
every request (main.py 303–304). -/
def encodeBody (c : GasCmd) (uid : ℤ) : List (String × JVal) :=
  encodeCmd c ++ [("user_id", .i uid)]

/-! ## Dialogue state machine: data model -/

/-- The `ConversationHandler` states of the source tuple (main.py 95–110),
in order.  `stBalanceChooseType` is declared in the source tuple but has no
entry in the `build_app` states table and is returned by no handler. -/
inductive ConvState
  | stMenu
  | stAddChooseType
  | stExpCategory
  | stExpPaymentType
  | stAmount
  | stComment
  | stIncCategory
  | stAnalysisPeriod
  | stAnalysisType
  | stSpecialReports
  | stBalanceChooseType
  | stBalanceEdit
  | stDebtsChooseType
  | stDebtsEdit
  deriving DecidableEq, Repr

/-- The draft transaction dict `context.user_data["tx"]`: each field is
present or absent.  `ty` holds the source's literal kind strings
`"расход"` (expense) and `"доход"` (income). -/
structure Tx where
  ty : Option String := none
  category : Option String := none
  amount : Option ℚ := none
  paymentType : Option String := none
  comment : Option String := none
  deriving DecidableEq, Repr, Inhabited

def emptyTx : Tx := {}

/-- The per-user `context.user_data` dict: the draft, the per-flow category
cache, the pending analysis/balance/debts context, and the working-message
handle. -/
structure UserData where
  tx : Option Tx := none
  categories : Option GasData := none
  analysisPeriod : Option String := none
  balancePaymentType : Option String := none
  debtType : Option String := none
  workingMessageId : Option ℕ := none
  deriving DecidableEq, Repr, Inhabited

def emptyUD : UserData := {}

/-- Targets of the `back:*` callback payloads routed by `back_router`. -/
inductive BackTarget
  | toMenu
  | toChooseType
  | toExpCat
  | toAnalysisPeriods
  | toAnalysisType
  | toDebtsType
  deriving DecidableEq, Repr

/-- The three balance buttons matched by `^balance:(cash|qr|bn)$`. -/
inductive BalanceBtn
  | cash
  | qr
  | bn
  deriving DecidableEq, Repr

def balanceBtnStr (b : BalanceBtn) : String :=
  match b with
  | .cash => "cash"
  | .qr => "qr"
  | .bn => "bn"

/-- Callback payloads, one constructor per payload shape the source's
regex patterns distinguish.  The `...Other` constructors stand for payloads
that match a prefix pattern (e.g. `^menu:`) without being one of the values
the handler tests for, exercising its fall-through. -/
inductive Cb
  | menuAdd
  | menuAnalysis
  | menuBalance
  | menuDebts
  | menuOther
  | balanceBtn (b : BalanceBtn)
  | typeExpense
  | typeIncome
  | typeOther
  | back (t : BackTarget)
  | expcat (i : ℕ)
  | inccat (i : ℕ)
  | payment (i : ℕ)
  | commentSkip
  | aperiod (p : String)
  | atype (a : String)
  | special (s : String)
  | debtsType (t : String)
  | debtsEditBtn
  deriving DecidableEq, Repr

/-- Inbound events of one user: the `/start` command, the `/help` command,
a button press (with the id of the message carrying the keyboard), or a
free-text non-command message. -/
inductive Event
  | start
  | helpCmd
  | cb (c : Cb) (mid : ℕ)
  | msg (t : String)
  deriving DecidableEq, Repr

/-- Keyboards, symbolically (no claim inspects button layout). -/
inductive Kb
  | mainOwner
  | mainEmployee
  | chooseType
  | expCats (cs : List String)
  | incCats (cs : List String)
  | payments (ps : List String)
  | skipComment
  | analysisPeriods
  | analysisTypeKb
  | specialKb
  | balanceMenu
  | debtsTypeKb
  | debtsActions
  deriving DecidableEq, Repr

/-- Outbound message texts.  String literals of the source stay literal;
data-formatted texts are symbolic constructors carrying the data they are
formatted from. -/
inductive OutText
  | lit (s : String)
  | mainOwner (summary : GasData) (txs : GasData)
  | mainEmployee (txs : GasData)
  | balancesView (d : GasData)
  | analysisTypeHeader (label : String)
  | incomeReport (period : String) (d : GasData)
  | expenseReport (period : String) (d : GasData)
  | compareReport (d : GasData)
  | averageReport (d : GasData)
  | topReport (d : GasData)
  | debtsView (dt : String) (d : GasData)
  | savedConfirm (t : Tx)
  | errorText (e : PyExc)
  | balancePrompt (label : String)
  | balanceSetText (pt : String) (amt : ℚ)
  | debtsEditPrompt (label : String)
  | debtsSetText (dt : String) (amt : ℚ)
  deriving DecidableEq, Repr

/-- Observable effects of processing one event: a backend call (tagged with
the acting user's id), sending / editing / deleting messages, and callback
answers (plain or alert). -/
inductive Eff
  | gas (c : GasCmd) (uid : ℤ)
  | send (id : ℕ) (t : OutText) (kb : Option Kb)
  | edit (mid : ℕ) (t : OutText) (kb : Option Kb)
  | ansCb
  | ansAlert (s : String)
  | delMsg (mid : ℕ)
  | delUserMsg
  deriving DecidableEq, Repr

/-- Startup configuration: the allow-list `USER_TG_IDS` and the owner list
`OWNER_IDS`, fixed for the process lifetime. -/
structure Cfg where
  allowed : List ℤ
  owners : List ℤ
  deriving DecidableEq, Repr

/-- The backend, as an oracle mapping each request to its raw response. -/
def Oracle : Type := GasCmd → RawResponse

/-- One user's session: the conversation state (`none` = no active
conversation), the `user_data` dict, and the next fresh message id. -/
structure Session where
  conv : Option ConvState
  ud : UserData
  nid : ℕ
  deriving DecidableEq, Repr

def initSession : Session := ⟨none, emptyUD, 1⟩

/-! ## String literals of the source -/

def DENY_TEXT : String := "Извини, доступ закрыт 🙂"

def accessDeniedAlert : String := "Доступ запрещён"

def chooseTypePrompt : String := "Окей 🙂 Что вносим?"

def expCatPrompt : String := "На что потратили? 💪"

def incCatPrompt : String := "Денежки! Откуда? 💰"

def amountPrompt : String :=
  "Сколько?\n\nПримеры: <code>2500</code>, <code>2 500</code>, <code>2.500</code>, <code>2500,50</code>, <code>2к</code>"

def amountRetryPrompt : String :=
  "Не понял сумму 🙈\nНапиши, пожалуйста, например: 2500 / 2 500 / 2500,50 / 2к"

def balanceRetryPrompt : String :=
  "Не понял сумму 🙈\nНапиши, пожалуйста, например: 50000 / 50 000 / 50к"

def debtsRetryPrompt : String :=
  "Не понял сумму 🙈\nНапиши, пожалуйста, например: 10000 / 10 000 / 10к"

def analysisPrompt : String := "📊 Анализ\n\nВыбери период:"

def debtsPrompt : String := "Какие долги?"

def specialPrompt : String := "⚙️ Специальные отчеты"

def paymentPrompt : String := "Откуда списываем?"

def commentAskPrompt : String := "Добавишь коммент?"

def errNotice : String := "Ой, что-то пошло не так 🙈 Попробуем ещё раз?"

def helpText : String :=
  "Кнопки внизу 🙂\n• Внести транзакцию\n• Анализ (только для владельцев)\n• Сверить баланс (только для владельцев)\n• Долги (только для владельцев)"

def periodLabel (p : String) : String :=
  if p = "today" then "Сегодня"
  else if p = "week" then "Эта неделя"
  else if p = "month" then "Этот месяц"
  else if p = "year" then "Этот год"
  else p

def balanceLabel (pt : String) : String :=
  if pt = "cash" then "наличных"
  else if pt = "qr" then "QR счета"
  else if pt = "bn" then "безналичного счета"
  else ""

def debtsEditLabel (dt : String) : String :=
  if dt = "owe_me" then "долгов передо мной" else "долгов"

/-! ## Handler machinery -/

/-- Accumulator threaded through one event's processing: the mutable
`user_data`, the fresh-message-id counter, and the effects so far. -/
structure Mach where
  ud : UserData
  nid : ℕ
  effs : List Eff
  deriving Repr

def emit (e : Eff) (m : Mach) : Mach := ⟨m.ud, m.nid, m.effs ++ [e]⟩

def setUD (f : UserData → UserData) (m : Mach) : Mach := ⟨f m.ud, m.nid, m.effs⟩

/-- `chat.send_message`: returns the id of the sent message. -/
def sendM (t : OutText) (kb : Option Kb) (m : Mach) : ℕ × Mach :=
  (m.nid, ⟨m.ud, m.nid + 1, m.effs ++ [.send m.nid t kb]⟩)

/-- Append a batch of already-determined effects. -/
def pushEffs (l : List Eff) (m : Mach) : Mach := ⟨m.ud, m.nid, m.effs ++ l⟩

/-- `delete_working_message` (main.py 116–124): best-effort delete of the
stored working message, then always reset the handle. -/
def deleteWorking (m : Mach) : Mach :=
  match m.ud.workingMessageId with
  | some w => ⟨{ m.ud with workingMessageId := none }, m.nid, m.effs ++ [.delMsg w]⟩
  | none => ⟨{ m.ud with workingMessageId := none }, m.nid, m.effs⟩

def is_allowed (cfg : Cfg) (uid : ℤ) : Bool := cfg.allowed.contains uid

def is_owner (cfg : Cfg) (uid : ℤ) : Bool := cfg.owners.contains uid

/-- Result of `main_screen_text_owner` (two backend reads) — the rendered
text and keyboard, or the exception of the first failing read.  Also used
by the balance/debts flows unconditionally. -/
def ownerScreenRes (o : Oracle) : Except PyExc (OutText × Kb) :=
  match gasRequest (o .summary_month) with
  | .error e => .error e
  | .ok s =>
      match gasRequest (o (.get_last_transactions 5)) with
      | .error e => .error e
      | .ok t => .ok (.mainOwner s t, .mainOwner)

/-- The gateway-call effects of `main_screen_text_owner` (the second read
happens only when the first succeeds). -/
def ownerScreenEffs (o : Oracle) (uid : ℤ) : List Eff :=
  match gasRequest (o .summary_month) with
  | .error _ => [.gas .summary_month uid]
  | .ok _ => [.gas .summary_month uid, .gas (.get_last_transactions 5) uid]

/-- Result of `main_screen_text_employee` (one backend read). -/
def employeeScreenRes (o : Oracle) : Except PyExc (OutText × Kb) :=
  match gasRequest (o (.get_last_transactions 10)) with
  | .error e => .error e
  | .ok t => .ok (.mainEmployee t, .mainEmployee)

/-- Role-dependent main screen text and keyboard. -/
def mainScreenRes (cfg : Cfg) (o : Oracle) (uid : ℤ) : Except PyExc (OutText × Kb) :=
  if is_owner cfg uid then ownerScreenRes o else employeeScreenRes o

/-- Role-dependent main-screen gateway effects. -/
def mainScreenEffs (cfg : Cfg) (o : Oracle) (uid : ℤ) : List Eff :=
  if is_owner cfg uid then ownerScreenEffs o uid
  else [.gas (.get_last_transactions 10) uid]

/-- Outcome of one handler: a new conversation state, `ConversationHandler.END`,
`None` (keep state), or an uncaught exception (state also kept; the
application error handler runs). -/
inductive Outcome
  | toState (s : ConvState)
  | endConv
  | keep
  | raised (e : PyExc)
  deriving DecidableEq, Repr

structure HRes where
  m : Mach
  out : Outcome

/-! ## Handlers (main.py 422–1146) -/

/-- `cmd_start` (main.py 422–440): deny if not allowed; else clear
`user_data`, render the role-appropriate main screen, go to `ST_MENU`. -/
def cmd_start (cfg : Cfg) (o : Oracle) (uid : ℤ) (m : Mach) : HRes :=
  if is_allowed cfg uid then
    let m1 : Mach := ⟨emptyUD, m.nid, m.effs⟩
    let m2 := pushEffs (mainScreenEffs cfg o uid) m1
    match mainScreenRes cfg o uid with
    | .error e => ⟨m2, .raised e⟩
    | .ok (t, kb) =>
        let r := sendM t (some kb) m2
        ⟨r.2, .toState .stMenu⟩
  else
    let r := sendM (.lit DENY_TEXT) none m
    ⟨r.2, .endConv⟩

/-- `on_menu` (main.py 443–494): the `^menu:` router with owner gating on
the analysis / balance / debts branches. -/
def on_menu (cfg : Cfg) (o : Oracle) (uid : ℤ) (c : Cb) (mid : ℕ) (m : Mach) : HRes :=
  if is_allowed cfg uid then
    let m0 := emit .ansCb m
    match c with
    | .menuAdd =>
        let m1 := emit (.edit mid (.lit chooseTypePrompt) (some .chooseType)) m0
        let m2 := setUD (fun ud => { ud with workingMessageId := some mid }) m1
        ⟨m2, .toState .stAddChooseType⟩
    | .menuAnalysis =>
        if is_owner cfg uid then
          let m1 := emit (.edit mid (.lit analysisPrompt) (some .analysisPeriods)) m0
          let m2 := setUD (fun ud => { ud with workingMessageId := some mid }) m1
          ⟨m2, .toState .stAnalysisPeriod⟩
        else ⟨emit (.ansAlert accessDeniedAlert) m0, .toState .stMenu⟩
    | .menuBalance =>
        if is_owner cfg uid then
          let m1 := emit (.gas .get_all_balances uid) m0
          match gasRequest (o .get_all_balances) with
          | .error e => ⟨m1, .raised e⟩
          | .ok d =>
              let m2 := emit (.edit mid (.balancesView d) (some .balanceMenu)) m1
              let m3 := setUD (fun ud => { ud with workingMessageId := some mid }) m2
              ⟨m3, .toState .stMenu⟩
        else ⟨emit (.ansAlert accessDeniedAlert) m0, .toState .stMenu⟩
    | .menuDebts =>
        if is_owner cfg uid then
          let m1 := emit (.edit mid (.lit debtsPrompt) (some .debtsTypeKb)) m0
          let m2 := setUD (fun ud => { ud with workingMessageId := some mid }) m1
          ⟨m2, .toState .stDebtsChooseType⟩
        else ⟨emit (.ansAlert accessDeniedAlert) m0, .toState .stMenu⟩
    | _ => ⟨m0, .toState .stMenu⟩
  else
    let m1 := emit .ansCb m
    let m2 := emit (.edit mid (.lit DENY_TEXT) none) m1
    ⟨m2, .endConv⟩

/-- `back_router` (main.py 497–546): the `^back:` router.  Performs no
allow-list check of its own. -/
def back_router (cfg : Cfg) (o : Oracle) (uid : ℤ) (t : BackTarget) (mid : ℕ)
    (m : Mach) : HRes :=
  let m0 := emit .ansCb m
  match t with
  | .toMenu =>
      let m1 := deleteWorking m0
      let m2 := pushEffs (mainScreenEffs cfg o uid) m1
      match mainScreenRes cfg o uid with
      | .error e => ⟨m2, .raised e⟩
      | .ok (txt, kb) =>
          let r := sendM txt (some kb) m2
          ⟨r.2, .toState .stMenu⟩
  | .toChooseType =>
      ⟨emit (.edit mid (.lit chooseTypePrompt) (some .chooseType)) m0,
       .toState .stAddChooseType⟩
  | .toExpCat =>
      let m1 := emit (.gas .get_categories uid) m0
      match gasRequest (o .get_categories) with
      | .error e => ⟨m1, .raised e⟩
      | .ok d =>
          match d.expenses with
          | none => ⟨m1, .raised ⟨.keyError, "expenses"⟩⟩
          | some cs =>
              ⟨emit (.edit mid (.lit expCatPrompt) (some (.expCats cs))) m1,
               .toState .stExpCategory⟩
  | .toAnalysisPeriods =>
      ⟨emit (.edit mid (.lit analysisPrompt) (some .analysisPeriods)) m0,
       .toState .stAnalysisPeriod⟩
  | .toAnalysisType =>
      let period := m0.ud.analysisPeriod.getD "month"
      ⟨emit (.edit mid (.analysisTypeHeader (periodLabel period)) (some .analysisTypeKb)) m0,
       .toState .stAnalysisType⟩
  | .toDebtsType =>
      ⟨emit (.edit mid (.lit debtsPrompt) (some .debtsTypeKb)) m0,
       .toState .stDebtsChooseType⟩

/-- `choose_type` (main.py 551–571): reset the draft to an empty dict
(before the category fetch), fetch categories, branch on expense/income. -/
def choose_type (o : Oracle) (uid : ℤ) (c : Cb) (mid : ℕ) (m : Mach) : HRes :=
  let m0 := emit .ansCb m
  let m1 := setUD (fun ud => { ud with tx := some emptyTx }) m0
  let m2 := emit (.gas .get_categories uid) m1
  match gasRequest (o .get_categories) with
  | .error e => ⟨m2, .raised e⟩
  | .ok cats =>
      match c with
      | .typeExpense =>
          let m3 := setUD (fun ud => { ud with categories := some cats }) m2
          match cats.expenses with
          | none => ⟨m3, .raised ⟨.keyError, "expenses"⟩⟩
          | some cs =>
              ⟨emit (.edit mid (.lit expCatPrompt) (some (.expCats cs))) m3,
               .toState .stExpCategory⟩
      | .typeIncome =>
          let m3 := setUD (fun ud => { ud with categories := some cats }) m2
          match cats.incomes with
          | none => ⟨m3, .raised ⟨.keyError, "incomes"⟩⟩
          | some cs =>
              ⟨emit (.edit mid (.lit incCatPrompt) (some (.incCats cs))) m3,
               .toState .stIncCategory⟩
      | _ => ⟨m2, .toState .stAddChooseType⟩

/-- `expense_category` (main.py 574–589): resolve the index against the
cached expense list, set kind and category, ask for the amount. -/
def expense_category (i : ℕ) (mid : ℕ) (m : Mach) : HRes :=
  let m0 := emit .ansCb m
  let cs := ((m0.ud.categories.getD noData).expenses).getD []
  match cs.get? i with
  | none => ⟨m0, .raised ⟨.indexError, "list index out of range"⟩⟩
  | some cat =>
      let t := m0.ud.tx.getD emptyTx
      let t1 := { t with ty := some "расход", category := some cat }
      let m1 := setUD (fun ud => { ud with tx := some t1 }) m0
      ⟨emit (.edit mid (.lit amountPrompt) none) m1, .toState .stAmount⟩

/-- `income_category` (main.py 592–608): like `expense_category`, but the
selected category is stored in both `category` and `payment_type`
(`tx["payment_type"] = cat`, main.py 603). -/
def income_category (i : ℕ) (mid : ℕ) (m : Mach) : HRes :=
  let m0 := emit .ansCb m
  let cs := ((m0.ud.categories.getD noData).incomes).getD []
  match cs.get? i with
  | none => ⟨m0, .raised ⟨.indexError, "list index out of range"⟩⟩
  | some cat =>
      let t := m0.ud.tx.getD emptyTx
      let t1 := { t with ty := some "доход", category := some cat, paymentType := some cat }
      let m1 := setUD (fun ud => { ud with tx := some t1 }) m0
      ⟨emit (.edit mid (.lit amountPrompt) none) m1, .toState .stAmount⟩

/-- `amount_received` (main.py 611–672): parse the free-text amount; on
failure re-prompt and stay; on success store it and branch by kind to the
payment-type keyboard (expense) or the comment prompt (income). -/
def amount_received (cfg : Cfg) (_o : Oracle) (uid : ℤ) (txt : String) (m : Mach) : HRes :=
  if is_allowed cfg uid then
    let amt := parse_amount txt
    let m0 := emit .delUserMsg m
    match amt with
    | none =>
        let m1 := deleteWorking m0
        let r := sendM (.lit amountRetryPrompt) none m1
        let m2 := setUD (fun ud => { ud with workingMessageId := some r.1 }) r.2
        ⟨m2, .toState .stAmount⟩
    | some a =>
        let t := m0.ud.tx.getD emptyTx
        let t1 := { t with amount := some a }
        let m1 := setUD (fun ud => { ud with tx := some t1 }) m0
        match m1.ud.workingMessageId with
        | some w =>
            if t1.ty = some "расход" then
              let pts := ((m1.ud.categories.getD noData).paymentTypes).getD []
              ⟨emit (.edit w (.lit paymentPrompt) (some (.payments pts))) m1,
               .toState .stExpPaymentType⟩
            else
              let ctext :=
                if t1.category = some "Услуги по БН" then "Напиши название Юр лица:"
                else "Напиши ФИО клиента или марку авто:"
              ⟨emit (.edit w (.lit ctext) none) m1, .toState .stComment⟩
        | none =>
            if t1.ty = some "расход" then ⟨m1, .toState .stExpPaymentType⟩
            else ⟨m1, .toState .stComment⟩
  else
    let r := sendM (.lit DENY_TEXT) none m
    ⟨r.2, .endConv⟩

/-- `payment_type_selected` (main.py 675–690): resolve the payment-type
index, store it, ask for a comment with the skip keyboard. -/
def payment_type_selected (i : ℕ) (mid : ℕ) (m : Mach) : HRes :=
  let m0 := emit .ansCb m
  let pts := ((m0.ud.categories.getD noData).paymentTypes).getD []
  match pts.get? i with
  | none => ⟨m0, .raised ⟨.indexError, "list index out of range"⟩⟩
  | some pt =>
      let t := m0.ud.tx.getD emptyTx
      let t1 := { t with paymentType := some pt }
      let m1 := setUD (fun ud => { ud with tx := some t1 }) m0
      ⟨emit (.edit mid (.lit commentAskPrompt) (some .skipComment)) m1,
       .toState .stComment⟩

/-- `save_and_finish_` (main.py 739–790): delete the working message, send
the accumulated draft as an `add` call; on failure show the error; either
way re-render the main screen.  Only the `add` call is inside a
`try`/`except` — a failure of the re-render reads propagates.  The draft is
not cleared.  Returns the machine plus an uncaught exception, if any. -/
def save_and_finish_ (cfg : Cfg) (o : Oracle) (uid : ℤ) (m : Mach) :
    Mach × Option PyExc :=
  let m0 := deleteWorking m
  let t := m0.ud.tx.getD emptyTx
  let payload : GasCmd := .add t.ty t.category t.amount t.paymentType (t.comment.getD "")
  let m1 := emit (.gas payload uid) m0
  match gasRequest (o payload) with
  | .error e =>
      let r := sendM (.errorText e) none m1
      let m2 := pushEffs (mainScreenEffs cfg o uid) r.2
      (match mainScreenRes cfg o uid with
       | .error e2 => (m2, some e2)
       | .ok (txt, kb) =>
           let r2 := sendM txt (some kb) m2
           (r2.2, none))
  | .ok _ =>
      match t.amount with
      | none =>
          -- the f-string formats the missing amount and raises
          (m1, some ⟨.typeError, "unsupported format string passed to NoneType"⟩)
      | some _ =>
          let r := sendM (.savedConfirm t) none m1
          let m2 := pushEffs (mainScreenEffs cfg o uid) r.2
          match mainScreenRes cfg o uid with
          | .error e2 => (m2, some e2)
          | .ok (txt, kb) =>
              let r2 := sendM txt (some kb) m2
              (r2.2, none)

/-- Store a comment into the draft dict, `tx["comment"] = c` on
`user_data.get("tx", {})`. -/
def withComment (c : String) (ud : UserData) : UserData :=
  { ud with tx := some { ud.tx.getD emptyTx with comment := some c } }

/-- `comment_skip` (main.py 693–702): store an empty comment and finalize. -/
def comment_skip (cfg : Cfg) (o : Oracle) (uid : ℤ) (m : Mach) : HRes :=
  let m0 := emit .ansCb m
  let m1 := setUD (withComment "") m0
  match save_and_finish_ cfg o uid m1 with
  | (m2, none) => ⟨m2, .toState .stMenu⟩
  | (m2, some e) => ⟨m2, .raised e⟩

/-- Python `str.strip()` on both ends, implemented structurally (the
whitespace set matches the parser's `pyIsSpace` model). -/
def pyStrip (s : String) : String :=
  ⟨((s.data.dropWhile (fun c => pyIsSpace c)).reverse.dropWhile
      (fun c => pyIsSpace c)).reverse⟩

/-- The mandatory-comment re-prompt of `comment_received`, chosen by the
draft's category (main.py 722–726). -/
def commentRequiredPrompt (t : Tx) : String :=
  if t.category = some "Услуги по БН" then "Название Юр лица обязательно! Напиши:"
  else "ФИО или марка авто обязательны! Напиши:"

/-- `comment_received` (main.py 705–736): reject an empty (stripped)
comment for income drafts (re-prompt, stay, draft untouched); otherwise
store the comment and finalize. -/
def comment_received (cfg : Cfg) (o : Oracle) (uid : ℤ) (txt : String) (m : Mach) : HRes :=
  if is_allowed cfg uid then
    let m0 := emit .delUserMsg m
    let t := m0.ud.tx.getD emptyTx
    let c := pyStrip txt
    if t.ty = some "доход" ∧ c = "" then
      let m1 := deleteWorking m0
      let r := sendM (.lit (commentRequiredPrompt t)) none m1
      let m2 := setUD (fun ud => { ud with workingMessageId := some r.1 }) r.2
      ⟨m2, .toState .stComment⟩
    else
      let m1 := setUD (withComment c) m0
      match save_and_finish_ cfg o uid m1 with
      | (m2, none) => ⟨m2, .toState .stMenu⟩
      | (m2, some e) => ⟨m2, .raised e⟩
  else
    let r := sendM (.lit DENY_TEXT) none m
    ⟨r.2, .endConv⟩

/-- `analysis_period` (main.py 795–815): `special` opens the special
reports keyboard; any other period is stored in `user_data` and the
income/expense type keyboard is shown. -/
def analysis_period (p : String) (mid : ℕ) (m : Mach) : HRes :=
  let m0 := emit .ansCb m
  if p = "special" then
    ⟨emit (.edit mid (.lit specialPrompt) (some .specialKb)) m0,
     .toState .stSpecialReports⟩
  else
    let m1 := setUD (fun ud => { ud with analysisPeriod := some p }) m0
    ⟨emit (.edit mid (.analysisTypeHeader (periodLabel p)) (some .analysisTypeKb)) m1,
     .toState .stAnalysisType⟩

/-- Common tail of the report handlers: run the report read, send the
rendered report, re-render the main screen, return to `ST_MENU`. -/
def reportTail (cfg : Cfg) (o : Oracle) (uid : ℤ) (cmd : GasCmd)
    (f : GasData → OutText) (m : Mach) : HRes :=
  let m1 := emit (.gas cmd uid) m
  match gasRequest (o cmd) with
  | .error e => ⟨m1, .raised e⟩
  | .ok d =>
      let r := sendM (f d) none m1
      let m2 := pushEffs (mainScreenEffs cfg o uid) r.2
      match mainScreenRes cfg o uid with
      | .error e2 => ⟨m2, .raised e2⟩
      | .ok (txt, kb) =>
          let r2 := sendM txt (some kb) m2
          ⟨r2.2, .toState .stMenu⟩

/-- `analysis_type` (main.py 818–883): run the income (or, for any other
payload value, expense) analysis for the stored period. -/
def analysis_type (cfg : Cfg) (o : Oracle) (uid : ℤ) (a : String) (m : Mach) : HRes :=
  let m0 := emit .ansCb m
  let period := m0.ud.analysisPeriod.getD "month"
  let m1 := deleteWorking m0
  if a = "income" then
    reportTail cfg o uid (.analysis_income period) (fun d => .incomeReport period d) m1
  else
    reportTail cfg o uid (.analysis_expense period) (fun d => .expenseReport period d) m1

/-- `special_reports` (main.py 886–977): three special reports; any other
`special:*` payload falls through all branches and raises `NameError`
(the local `text` is then unbound at the final `send_message`). -/
def special_reports (cfg : Cfg) (o : Oracle) (uid : ℤ) (s : String) (m : Mach) : HRes :=
  let m0 := emit .ansCb m
  let m1 := deleteWorking m0
  if s = "compare" then reportTail cfg o uid .compare_months (fun d => .compareReport d) m1
  else if s = "average" then reportTail cfg o uid .average_check (fun d => .averageReport d) m1
  else if s = "top" then reportTail cfg o uid .top_expenses (fun d => .topReport d) m1
  else ⟨m1, .raised ⟨.nameError, "name text is not defined"⟩⟩

/-- `balance_edit_start` (main.py 982–1002): store the chosen balance
account, prompt for the amount.  No owner check of its own. -/
def balance_edit_start (b : BalanceBtn) (mid : ℕ) (m : Mach) : HRes :=
  let m0 := emit .ansCb m
  let pt := balanceBtnStr b
  let m1 := setUD (fun ud => { ud with balancePaymentType := some pt }) m0
  let m2 := emit (.edit mid (.balancePrompt (balanceLabel pt)) none) m1
  let m3 := setUD (fun ud => { ud with workingMessageId := some mid }) m2
  ⟨m3, .toState .stBalanceEdit⟩

/-- `balance_edit_received` (main.py 1005–1045): parse the amount
(re-prompt on failure), issue `set_balance` (uncaught on failure), confirm
and re-render the owner main screen. -/
def balance_edit_received (cfg : Cfg) (o : Oracle) (uid : ℤ) (txt : String) (m : Mach) : HRes :=
  if is_allowed cfg uid then
    let m0 := emit .delUserMsg m
    match parse_amount txt with
    | none =>
        let m1 := deleteWorking m0
        let r := sendM (.lit balanceRetryPrompt) none m1
        let m2 := setUD (fun ud => { ud with workingMessageId := some r.1 }) r.2
        ⟨m2, .toState .stBalanceEdit⟩
    | some a =>
        let pt := m0.ud.balancePaymentType.getD "cash"
        let m1 := emit (.gas (.set_balance a pt) uid) m0
        match gasRequest (o (.set_balance a pt)) with
        | .error e => ⟨m1, .raised e⟩
        | .ok _ =>
            let m2 := deleteWorking m1
            let r := sendM (.balanceSetText pt a) none m2
            let m3 := pushEffs (ownerScreenEffs o uid) r.2
            match ownerScreenRes o with
            | .error e2 => ⟨m3, .raised e2⟩
            | .ok (txt2, _) =>
                let r2 := sendM txt2 (some .mainOwner) m3
                ⟨r2.2, .toState .stMenu⟩
  else
    let r := sendM (.lit DENY_TEXT) none m
    ⟨r.2, .endConv⟩

/-- `debts_choose_type` (main.py 1050–1066): store the debt type, read and
show the current amount with the edit keyboard, stay in the same state. -/
def debts_choose_type (o : Oracle) (uid : ℤ) (t : String) (mid : ℕ) (m : Mach) : HRes :=
  let m0 := emit .ansCb m
  let m1 := setUD (fun ud => { ud with debtType := some t }) m0
  let m2 := emit (.gas (.get_debts t) uid) m1
  match gasRequest (o (.get_debts t)) with
  | .error e => ⟨m2, .raised e⟩
  | .ok d =>
      ⟨emit (.edit mid (.debtsView t d) (some .debtsActions)) m2,
       .toState .stDebtsChooseType⟩

/-- `debts_edit_start` (main.py 1069–1082): prompt for the new debt amount. -/
def debts_edit_start (mid : ℕ) (m : Mach) : HRes :=
  let m0 := emit .ansCb m
  let dt := m0.ud.debtType.getD "i_owe"
  let m1 := emit (.edit mid (.debtsEditPrompt (debtsEditLabel dt)) none) m0
  let m2 := setUD (fun ud => { ud with workingMessageId := some mid }) m1
  ⟨m2, .toState .stDebtsEdit⟩

/-- `debts_edit_received` (main.py 1085–1121): parse the amount (re-prompt
on failure), issue `set_debts`, confirm and re-render the owner screen. -/
def debts_edit_received (cfg : Cfg) (o : Oracle) (uid : ℤ) (txt : String) (m : Mach) : HRes :=
  if is_allowed cfg uid then
    let m0 := emit .delUserMsg m
    match parse_amount txt with
    | none =>
        let m1 := deleteWorking m0
        let r := sendM (.lit debtsRetryPrompt) none m1
        let m2 := setUD (fun ud => { ud with workingMessageId := some r.1 }) r.2
        ⟨m2, .toState .stDebtsEdit⟩
    | some a =>
        let dt := m0.ud.debtType.getD "i_owe"
        let m1 := emit (.gas (.set_debts a dt) uid) m0
        match gasRequest (o (.set_debts a dt)) with
        | .error e => ⟨m1, .raised e⟩
        | .ok _ =>
            let m2 := deleteWorking m1
            let r := sendM (.debtsSetText dt a) none m2
            let m3 := pushEffs (ownerScreenEffs o uid) r.2
            match ownerScreenRes o with
            | .error e2 => ⟨m3, .raised e2⟩
            | .ok (txt2, _) =>
                let r2 := sendM txt2 (some .mainOwner) m3
                ⟨r2.2, .toState .stMenu⟩
  else
    let r := sendM (.lit DENY_TEXT) none m
    ⟨r.2, .endConv⟩

/-- `cmd_help` (main.py 1126–1136): deny or help; returns `None`, so the
conversation state is kept either way. -/
def cmd_help (cfg : Cfg) (uid : ℤ) (m : Mach) : HRes :=
  if is_allowed cfg uid then
    let r := sendM (.lit helpText) none m
    ⟨r.2, .keep⟩
  else
    let r := sendM (.lit DENY_TEXT) none m
    ⟨r.2, .keep⟩

/-! ## Event routing and dispatch (`build_app`, main.py 1148–1211) -/

/-- Names of the handlers registered in the `build_app` states table. -/
inductive HKind
  | hOnMenu
  | hBalanceStart
  | hChooseType
  | hBack
  | hExpCat
  | hIncCat
  | hAmount
  | hPayment
  | hCommentSkip
  | hCommentMsg
  | hAPeriod
  | hAType
  | hSpecial
  | hBalanceMsg
  | hDebtsType
  | hDebtsEditStart
  | hDebtsMsg
  deriving DecidableEq, Repr

/-- The `build_app` states table (main.py 1153–1203): which handler, if
any, a given conversation state assigns to an event.  `none` means the
update is not handled (it then falls to the `/help` fallback for commands
only, handled separately in `dispatch`). -/
def convRoute (st : ConvState) (ev : Event) : Option HKind :=
  match st, ev with
  | .stMenu, .cb c _ =>
      (match c with
       | .menuAdd | .menuAnalysis | .menuBalance | .menuDebts | .menuOther => some .hOnMenu
       | .balanceBtn _ => some .hBalanceStart
       | _ => none)
  | .stAddChooseType, .cb c _ =>
      (match c with
       | .typeExpense | .typeIncome | .typeOther => some .hChooseType
       | .back _ => some .hBack
       | _ => none)
  | .stExpCategory, .cb c _ =>
      (match c with
       | .expcat _ => some .hExpCat
       | .back _ => some .hBack
       | _ => none)
  | .stIncCategory, .cb c _ =>
      (match c with
       | .inccat _ => some .hIncCat
       | .back _ => some .hBack
       | _ => none)
  | .stAmount, .msg _ => some .hAmount
  | .stExpPaymentType, .cb c _ =>
      (match c with
       | .payment _ => some .hPayment
       | _ => none)
  | .stComment, .cb c _ =>
      (match c with
       | .commentSkip => some .hCommentSkip
       | _ => none)
  | .stComment, .msg _ => some .hCommentMsg
  | .stAnalysisPeriod, .cb c _ =>
      (match c with
       | .aperiod _ => some .hAPeriod
       | .back _ => some .hBack
       | _ => none)
  | .stAnalysisType, .cb c _ =>
      (match c with
       | .atype _ => some .hAType
       | .back _ => some .hBack
       | _ => none)
  | .stSpecialReports, .cb c _ =>
      (match c with
       | .special _ => some .hSpecial
       | .back _ => some .hBack
       | _ => none)
  | .stBalanceEdit, .msg _ => some .hBalanceMsg
  | .stDebtsChooseType, .cb c _ =>
      (match c with
       | .debtsType _ => some .hDebtsType
       | .debtsEditBtn => some .hDebtsEditStart
       | .back _ => some .hBack
       | _ => none)
  | .stDebtsEdit, .msg _ => some .hDebtsMsg
  | _, _ => none

/-- Run the handler selected by `convRoute`. -/
def runHandler (cfg : Cfg) (o : Oracle) (uid : ℤ) (h : HKind) (ev : Event)
    (m : Mach) : HRes :=
  match h, ev with
  | .hOnMenu, .cb c mid => on_menu cfg o uid c mid m
  | .hBalanceStart, .cb (.balanceBtn b) mid => balance_edit_start b mid m
  | .hChooseType, .cb c mid => choose_type o uid c mid m
  | .hBack, .cb (.back t) mid => back_router cfg o uid t mid m
  | .hExpCat, .cb (.expcat i) mid => expense_category i mid m
  | .hIncCat, .cb (.inccat i) mid => income_category i mid m
  | .hAmount, .msg t => amount_received cfg o uid t m
  | .hPayment, .cb (.payment i) mid => payment_type_selected i mid m
  | .hCommentSkip, .cb .commentSkip _ => comment_skip cfg o uid m
  | .hCommentMsg, .msg t => comment_received cfg o uid t m
  | .hAPeriod, .cb (.aperiod p) mid => analysis_period p mid m
  | .hAType, .cb (.atype a) _ => analysis_type cfg o uid a m
  | .hSpecial, .cb (.special s) _ => special_reports cfg o uid s m
  | .hBalanceMsg, .msg t => balance_edit_received cfg o uid t m
  | .hDebtsType, .cb (.debtsType t) mid => debts_choose_type o uid t mid m
  | .hDebtsEditStart, .cb .debtsEditBtn mid => debts_edit_start mid m
  | .hDebtsMsg, .msg t => debts_edit_received cfg o uid t m
  | _, _ => ⟨m, .keep⟩

/-- Close out one handler run: apply its outcome to the conversation state;
an uncaught exception leaves the state unchanged and runs the application
`error_handler`, which replies with a generic failure notice. -/
def finishRes (st : Option ConvState) (r : HRes) : Session × List Eff :=
  match r.out with
  | .raised _ =>
      let r2 := sendM (.lit errNotice) none r.m
      (⟨st, r2.2.ud, r2.2.nid⟩, r2.2.effs)
  | .toState s => (⟨some s, r.m.ud, r.m.nid⟩, r.m.effs)
  | .endConv => (⟨none, r.m.ud, r.m.nid⟩, r.m.effs)
  | .keep => (⟨st, r.m.ud, r.m.nid⟩, r.m.effs)

/-- Process one inbound event against one user's session, python-telegram-bot
style: `/start` is an entry point usable at any time (`allow_reentry=True`);
`/help` is the conversation fallback and also an application-level handler;
other events are routed by the current state's handler list and are ignored
if no handler matches (in particular, any non-command event of a user with
no active conversation). -/
def dispatch (cfg : Cfg) (o : Oracle) (uid : ℤ) (s : Session) (ev : Event) :
    Session × List Eff :=
  let m : Mach := ⟨s.ud, s.nid, []⟩
  match ev with
  | .start => finishRes s.conv (cmd_start cfg o uid m)
  | .helpCmd => finishRes s.conv (cmd_help cfg uid m)
  | _ =>
      match s.conv with
      | none => (s, [])
      | some st =>
          match convRoute st ev with
          | some h => finishRes s.conv (runHandler cfg o uid h ev m)
          | none => (s, [])

/-- Run a list of events, each with the backend behaviour in force when it
is processed, accumulating effects. -/
def runTrace (cfg : Cfg) (uid : ℤ) : Session → List (Oracle × Event) → Session × List Eff
  | s, [] => (s, [])
  | s, (o, ev) :: rest =>
      let r := dispatch cfg o uid s ev
      let r2 := runTrace cfg uid r.1 rest
      (r2.1, r.2 ++ r2.2)

/-! ## Concrete scenario data -/

/-- Demo configuration: user 1 is an allowed owner, user 2 an allowed
employee; user 99 is not on the allow-list. -/
def cfgDemo : Cfg := ⟨[1, 2], [1]⟩

/-- Category lists served by the demo backend. -/
def demoCats : GasData :=
  { expenses := some ["Tools", "Rent"]
    incomes := some ["Services"]
    paymentTypes := some ["Cash", "QR"] }

/-- A backend that answers every request successfully. -/
def okOracle : Oracle := fun c =>
  match c with
  | .get_categories => .js true none (some demoCats)
  | _ => .js true none (some noData)

/-- The owner expense-entry flow of the end-to-end scenario: Menu → add →
expense → category "Tools" → "2500" → payment "Cash" → skip comment. -/
def c1Events : List (Oracle × Event) :=
  [(okOracle, .start),
   (okOracle, .cb .menuAdd 1),
   (okOracle, .cb .typeExpense 1),
   (okOracle, .cb (.expcat 0) 1),
   (okOracle, .msg "2500"),
   (okOracle, .cb (.payment 0) 1),
   (okOracle, .cb .commentSkip 1)]

/-- Prefix of the expense flow stopping in the amount-entry state. -/
def c3Events : List (Oracle × Event) :=
  [(okOracle, .start),
   (okOracle, .cb .menuAdd 1),
   (okOracle, .cb .typeExpense 1),
   (okOracle, .cb (.expcat 0) 1)]

/-- An owner analysis flow followed by the start of an expense flow. -/
def c8Events : List (Oracle × Event) :=
  [(okOracle, .start),
   (okOracle, .cb .menuAnalysis 1),
   (okOracle, .cb (.aperiod "month") 1),
   (okOracle, .cb (.atype "income") 1),
   (okOracle, .cb .menuAdd 2),
   (okOracle, .cb .typeExpense 2),
   (okOracle, .cb (.expcat 0) 2)]

/-- A completed income flow: category "Services", amount "2500",
comment "Acme LLC". -/
def c10Events : List (Oracle × Event) :=
  [(okOracle, .start),
   (okOracle, .cb .menuAdd 1),
   (okOracle, .cb .typeIncome 1),
   (okOracle, .cb (.inccat 0) 1),
   (okOracle, .msg "2500"),
   (okOracle, .msg "Acme LLC")]

/-- Is an effect an `add` gateway call? -/
def isAddGas (e : Eff) : Bool :=
  match e with
  | .gas (.add _ _ _ _ _) _ => true
  | _ => false

/-! ## Predicates used by the theorems -/

/-- The conversation states whose `build_app` handler list contains a
`^back:` handler. -/
def backStates : List ConvState :=
  [.stAddChooseType, .stExpCategory, .stIncCategory, .stAnalysisPeriod,
   .stAnalysisType, .stSpecialReports, .stDebtsChooseType]

/-- An `add` gateway call with income kind carries equal `payment_type`
and `category` fields; every other effect satisfies this vacuously. -/
def addEffOk : Eff → Prop
  | .gas (.add ty cat _ pt _) _ => ty = some "доход" → pt = cat
  | _ => True

def effsOk (l : List Eff) : Prop := ∀ e ∈ l, addEffOk e

/-- An income draft stores the selected category in both `category` and
`payment_type`. -/
def txInvTx (t : Tx) : Prop := t.ty = some "доход" → t.paymentType = t.category

def txInvUD (ud : UserData) : Prop := ∀ t, ud.tx = some t → txInvTx t

/-- Session invariant: the draft satisfies `txInvTx`, and in the
payment-type state the draft kind is never income (that state is entered
only through the expense branch of `amount_received`). -/
def sessInv (s : Session) : Prop :=
  txInvUD s.ud ∧
  (s.conv = some .stExpPaymentType → (s.ud.tx.getD emptyTx).ty ≠ some "доход")

/-- The conversation state after an outcome is applied to the state the
handler ran from (`finishRes` on the state component). -/
def outState (st : Option ConvState) : Outcome → Option ConvState
  | .toState s2 => some s2
  | .endConv => none
  | .keep => st
  | .raised _ => st

/-- Invariant of one handler run relative to its input machine: the draft
invariant holds afterwards, clean input effects stay clean, and a
transition into the payment-type state carries a non-income draft. -/
def hcore (m : Mach) (r : HRes) : Prop :=
  txInvUD r.m.ud ∧
  (effsOk m.effs → effsOk r.m.effs) ∧
  (∀ s2, r.out = .toState s2 → s2 = .stExpPaymentType →
    (r.m.ud.tx.getD emptyTx).ty ≠ some "доход")

/-- `hcore` strengthened for a run from state `st`: the kept-state
outcomes (`keep` and an uncaught exception) are also covered. -/
def hstep (st : ConvState) (m : Mach) (r : HRes) : Prop :=
  txInvUD r.m.ud ∧
  (effsOk m.effs → effsOk r.m.effs) ∧
  (outState (some st) r.out = some .stExpPaymentType →
    (r.m.ud.tx.getD emptyTx).ty ≠ some "доход")

/-- What a finalize run shows for the stored draft `t1`: if the `add` call
for `t1` fails, the error text is sent and no saved-acknowledgment is; if
it succeeds, the acknowledgment for `t1` is sent and no error text is. -/
def finalizeShows (o : Oracle) (t1 : Tx) (l : List Eff) : Prop :=
  let payload : GasCmd := .add t1.ty t1.category t1.amount t1.paymentType
    (t1.comment.getD "")
  (∀ e, gasRequest (o payload) = .error e →
    (∃ i, Eff.send i (.errorText e) none ∈ l) ∧
    ∀ i tv kb2, Eff.send i (.savedConfirm tv) kb2 ∉ l) ∧
  (∀ d, gasRequest (o payload) = .ok d →
    (∃ i, Eff.send i (.savedConfirm t1) none ∈ l) ∧
    ∀ i e2 kb2, Eff.send i (.errorText e2) kb2 ∉ l)

/-- A ready-to-finalize expense draft, used to instantiate witnesses. -/
def udW : UserData :=
  { tx := some ⟨some "расход", some "Tools", some 2500, some "Cash", none⟩
    categories := some demoCats
    workingMessageId := some 1 }

/-- A ready-for-comment income draft, used to instantiate witnesses. -/
def udWInc : UserData :=
  { tx := some ⟨some "доход", some "Services", some 2500, some "Services", none⟩
    categories := some demoCats
    workingMessageId := some 1 }

/-- The session data after the completed expense flow `c1Events`:
state Menu, draft still fully populated, working message cleared. -/
def c1FinalUD : UserData :=
  { tx := some ⟨some "расход", some "Tools", some 2500, some "Cash", some ""⟩
    categories := some demoCats
    workingMessageId := none }

/-- The full effect list of `c1Events` under `okOracle`. -/
def c1Effs : List Eff :=
  [.gas .summary_month 1,
   .gas (.get_last_transactions 5) 1,
   .send 1 (.mainOwner noData noData) (some .mainOwner),
   .ansCb,
   .edit 1 (.lit chooseTypePrompt) (some .chooseType),
   .ansCb,
   .gas .get_categories 1,
   .edit 1 (.lit expCatPrompt) (some (.expCats ["Tools", "Rent"])),
   .ansCb,
   .edit 1 (.lit amountPrompt) none,
   .delUserMsg,
   .edit 1 (.lit paymentPrompt) (some (.payments ["Cash", "QR"])),
   .ansCb,
   .edit 1 (.lit commentAskPrompt) (some .skipComment),
   .ansCb,
   .delMsg 1,
   .gas (.add (some "расход") (some "Tools") (some 2500) (some "Cash") "") 1,
   .send 2 (.savedConfirm ⟨some "расход", some "Tools", some 2500, some "Cash", some ""⟩) none,
   .gas .summary_month 1,
   .gas (.get_last_transactions 5) 1,
   .send 3 (.mainOwner noData noData) (some .mainOwner)]

/-- Session data after the `c3Events` prefix (amount-entry state reached). -/
def c3FinalUD : UserData :=
  { tx := some ⟨some "расход", some "Tools", none, none, none⟩
    categories := some demoCats
    workingMessageId := some 1 }

/-- Session data after `c8Events`: the pending analysis period and the
new expense draft are populated at the same time. -/
def c8FinalUD : UserData :=
  { tx := some ⟨some "расход", some "Tools", none, none, none⟩
    categories := some demoCats
    analysisPeriod := some "month"
    workingMessageId := some 2 }

/-! ## Theorems: amount parser (C4) -/

theorem roundHalfEven_nonneg (q : ℚ) (hq : 0 ≤ q) : 0 ≤ roundHalfEven q := by
  unfold roundHalfEven
  have hf : (0 : ℤ) ≤ ⌊q⌋ := Int.floor_nonneg.mpr hq
  dsimp only
  split
  · exact hf
  · split
    · omega
    · split <;> omega

theorem pyRound2_nonneg (q : ℚ) (hq : 0 ≤ q) : 0 ≤ pyRound2 q := by
  unfold pyRound2
  have h := roundHalfEven_nonneg q hq
  have h2 : (0 : ℚ) ≤ (roundHalfEven (q * 100) : ℚ) := by
    exact_mod_cast roundHalfEven_nonneg (q * 100) (by positivity)
  exact div_nonneg h2 (by norm_num)

theorem pyRound2_den (q : ℚ) : (pyRound2 q * 100).den = 1 := by
  unfold pyRound2
  have h : (roundHalfEven (q * 100) : ℚ) / 100 * 100 = (roundHalfEven (q * 100) : ℚ) := by
    field_simp
  rw [h]
  exact Rat.den_intCast _

theorem finishAmount_some (w v : ℚ) (h : finishAmount w = some v) :
    0 ≤ v ∧ (v * 100).den = 1 := by
  unfold finishAmount at h
  split at h
  · exact absurd h (by simp)
  · rename_i hw
    have hv : pyRound2 w = v := by
      simpa using h
    constructor
    · exact hv ▸ pyRound2_nonneg w (le_of_not_lt hw)
    · exact hv ▸ pyRound2_den w

theorem parse_amount_valid (s : String) (v : ℚ) (h : parse_amount s = some v) :
    0 ≤ v ∧ (v * 100).den = 1 := by
  unfold parse_amount at h
  split at h
  · exact absurd h (by simp)
  · split at h
    · exact absurd h (by simp)
    · exact finishAmount_some _ _ h


theorem not_mem_of_allDigits {l : List Char} (c : Char) (hc : c.isDigit = false)
    (h : allDigits l = true) : ¬ c ∈ l := by
  intro hm
  have h2 := List.all_eq_true.mp h c hm
  rw [hc] at h2
  exact Bool.false_ne_true h2

theorem contains_eq_false {l : List Char} {c : Char} (h : ¬ c ∈ l) :
    l.contains c = false := by
  simp [List.contains, h]

theorem splitOnDot_no_dot {l : List Char} (h : ¬ '.' ∈ l) : splitOnDot l = [l] := by
  induction l with
  | nil => rfl
  | cons c cs ih =>
      have hc : c ≠ '.' := fun he => h (he ▸ List.mem_cons_self c cs)
      have hcs : ¬ '.' ∈ cs := fun hm => h (List.mem_cons_of_mem _ hm)
      simp only [splitOnDot]
      rw [ih hcs]
      simp [hc]

theorem splitOnDot_append {a b : List Char} (h : ¬ '.' ∈ a) :
    splitOnDot (a ++ '.' :: b) = a :: splitOnDot b := by
  induction a with
  | nil => simp [splitOnDot]
  | cons c cs ih =>
      have hc : c ≠ '.' := fun he => h (he ▸ List.mem_cons_self c cs)
      have hcs : ¬ '.' ∈ cs := fun hm => h (List.mem_cons_of_mem _ hm)
      simp only [List.cons_append, splitOnDot, List.append_eq]
      rw [ih hcs]
      simp [hc]

theorem head_not_minus {l : List Char} (h : allDigits l = true) :
    ¬ (l.head? = some '-') := by
  cases l with
  | nil => simp
  | cons c cs =>
      have hc := List.all_eq_true.mp h c (List.mem_cons_self c cs)
      have hne : c ≠ '-' := by
        intro he
        subst he
        exact absurd hc (by decide)
      simp [hne]

theorem pyFloat_digits {l : List Char} (h1 : l ≠ []) (h2 : allDigits l = true) :
    pyFloat l = some ((decDigits l : ℚ)) := by
  have hm : ¬ '-' ∈ l := not_mem_of_allDigits '-' (by decide) h2
  have hd : ¬ '.' ∈ l := not_mem_of_allDigits '.' (by decide) h2
  simp [pyFloat, head_not_minus h2, hm, splitOnDot_no_dot hd, h1, h2]

theorem pyFloat_digits_dot {a b : List Char} (h0 : a ≠ [] ∨ b ≠ [])
    (h2 : allDigits a = true) (h3 : allDigits b = true) :
    pyFloat (a ++ '.' :: b) =
      some ((decDigits a : ℚ) + (decDigits b : ℚ) / (10 : ℚ) ^ b.length) := by
  have hma : ¬ '-' ∈ a := not_mem_of_allDigits '-' (by decide) h2
  have hmb : ¬ '-' ∈ b := not_mem_of_allDigits '-' (by decide) h3
  have hda : ¬ '.' ∈ a := not_mem_of_allDigits '.' (by decide) h2
  have hdb : ¬ '.' ∈ b := not_mem_of_allDigits '.' (by decide) h3
  have hm : ¬ '-' ∈ (a ++ '.' :: b) := by
    intro hmem
    rcases List.mem_append.mp hmem with hx | hx
    · exact hma hx
    · rcases List.mem_cons.mp hx with he | hx
      · exact absurd he (by decide)
      · exact hmb hx
  have hh : ¬ (a.head? = some '-') := by
    cases a with
    | nil => simp
    | cons c cs =>
        have hc := List.all_eq_true.mp h2 c (List.mem_cons_self c cs)
        have hne : c ≠ '-' := by
          intro he
          subst he
          exact absurd hc (by decide)
        simp [hne]
  simp [pyFloat, hh, hm, splitOnDot_append hda, splitOnDot_no_dot hdb, h0, h2, h3]

theorem pyFloat_neg_digits {l : List Char} (h1 : l ≠ []) (h2 : allDigits l = true) :
    pyFloat ('-' :: l) = some (-(decDigits l : ℚ)) := by
  have hm : ¬ '-' ∈ l := not_mem_of_allDigits '-' (by decide) h2
  have hd : ¬ '.' ∈ l := not_mem_of_allDigits '.' (by decide) h2
  simp [pyFloat, hm, splitOnDot_no_dot hd, h1, h2]

theorem roundHalfEven_intCast (n : ℤ) : roundHalfEven ((n : ℚ)) = n := by
  simp only [roundHalfEven, Int.floor_intCast, sub_self]
  norm_num

theorem finishAmount_eval (q : ℚ) (n : ℤ) (hq : ¬ q < 0) (h : q * 100 = (n : ℚ)) :
    finishAmount q = some ((n : ℚ) / 100) := by
  unfold finishAmount pyRound2
  rw [if_neg hq, h, roundHalfEven_intCast]

theorem parse_amount_eq_2500 : parse_amount "2500" = some 2500 := by
  have hc : coreChars "2500" = ['2', '5', '0', '0'] := by decide
  have hm : multOf "2500" = 1 := by
    have he : endsK (stripLower "2500") = false := by decide
    simp [multOf, he]
  unfold parse_amount
  rw [if_neg (by decide : ¬ ("2500" : String) = ""), hc,
      pyFloat_digits (by decide) (by decide), hm]
  simp only [show decDigits ['2', '5', '0', '0'] = 2500 from by decide]
  rw [show (((2500 : ℕ) : ℚ) * 1) = 2500 by norm_num]
  rw [finishAmount_eval 2500 250000 (by norm_num) (by norm_num)]
  norm_num

theorem parse_amount_eq_2500sp : parse_amount "2 500" = some 2500 := by
  have hc : coreChars "2 500" = ['2', '5', '0', '0'] := by decide
  have hm : multOf "2 500" = 1 := by
    have he : endsK (stripLower "2 500") = false := by decide
    simp [multOf, he]
  unfold parse_amount
  rw [if_neg (by decide : ¬ ("2 500" : String) = ""), hc,
      pyFloat_digits (by decide) (by decide), hm]
  simp only [show decDigits ['2', '5', '0', '0'] = 2500 from by decide]
  rw [show (((2500 : ℕ) : ℚ) * 1) = 2500 by norm_num]
  rw [finishAmount_eval 2500 250000 (by norm_num) (by norm_num)]
  norm_num

theorem parse_amount_eq_comma : parse_amount "2500,50" = some (2500.50 : ℚ) := by
  have hc : coreChars "2500,50" = ['2', '5', '0', '0', '.', '5', '0'] := by decide
  have hsplit : (['2', '5', '0', '0', '.', '5', '0'] : List Char) =
      ['2', '5', '0', '0'] ++ '.' :: ['5', '0'] := rfl
  have hm : multOf "2500,50" = 1 := by
    have he : endsK (stripLower "2500,50") = false := by decide
    simp [multOf, he]
  unfold parse_amount
  rw [if_neg (by decide : ¬ ("2500,50" : String) = ""), hc, hsplit,
      pyFloat_digits_dot (by decide) (by decide) (by decide), hm]
  simp only [show decDigits ['2', '5', '0', '0'] = 2500 from by decide,
             show decDigits ['5', '0'] = 50 from by decide,
             show (['5', '0'] : List Char).length = 2 from by decide]
  rw [show (((2500 : ℕ) : ℚ) + ((50 : ℕ) : ℚ) / (10 : ℚ) ^ 2) * 1 = 5001 / 2 by norm_num]
  rw [finishAmount_eval (5001 / 2) 250050 (by norm_num) (by norm_num)]
  norm_num

theorem parse_amount_eq_mixed : parse_amount "2.500,75" = some (2500.75 : ℚ) := by
  have hc : coreChars "2.500,75" = ['2', '5', '0', '0', '.', '7', '5'] := by decide
  have hsplit : (['2', '5', '0', '0', '.', '7', '5'] : List Char) =
      ['2', '5', '0', '0'] ++ '.' :: ['7', '5'] := rfl
  have hm : multOf "2.500,75" = 1 := by
    have he : endsK (stripLower "2.500,75") = false := by decide
    simp [multOf, he]
  unfold parse_amount
  rw [if_neg (by decide : ¬ ("2.500,75" : String) = ""), hc, hsplit,
      pyFloat_digits_dot (by decide) (by decide) (by decide), hm]
  simp only [show decDigits ['2', '5', '0', '0'] = 2500 from by decide,
             show decDigits ['7', '5'] = 75 from by decide,
             show (['7', '5'] : List Char).length = 2 from by decide]
  rw [show (((2500 : ℕ) : ℚ) + ((75 : ℕ) : ℚ) / (10 : ℚ) ^ 2) * 1 = 10003 / 4 by norm_num]
  rw [finishAmount_eval (10003 / 4) 250075 (by norm_num) (by norm_num)]
  norm_num

theorem parse_amount_eq_k : parse_amount "2к" = some 2000 := by
  have hc : coreChars "2к" = ['2'] := by decide
  have hm : multOf "2к" = 1000 := by
    have he : endsK (stripLower "2к") = true := by decide
    simp [multOf, he]
  unfold parse_amount
  rw [if_neg (by decide : ¬ ("2к" : String) = ""), hc,
      pyFloat_digits (by decide) (by decide), hm]
  simp only [show decDigits ['2'] = 2 from by decide]
  rw [show (((2 : ℕ) : ℚ) * 1000) = 2000 by norm_num]
  rw [finishAmount_eval 2000 200000 (by norm_num) (by norm_num)]
  norm_num

theorem parse_amount_eq_neg : parse_amount "-5" = none := by
  have hc : coreChars "-5" = ['-', '5'] := by decide
  have hm : multOf "-5" = 1 := by
    have he : endsK (stripLower "-5") = false := by decide
    simp [multOf, he]
  unfold parse_amount
  rw [if_neg (by decide : ¬ ("-5" : String) = ""), hc,
      pyFloat_neg_digits (by decide) (by decide), hm]
  simp only [show decDigits ['5'] = 5 from by decide]
  unfold finishAmount
  rw [if_pos (by norm_num : (-((5 : ℕ) : ℚ)) * 1 < 0)]

theorem parse_amount_eq_abc : parse_amount "abc" = none := by
  have hc : coreChars "abc" = [] := by decide
  have hp : pyFloat ([] : List Char) = none := by simp [pyFloat, splitOnDot]
  unfold parse_amount
  rw [if_neg (by decide : ¬ ("abc" : String) = ""), hc, hp]

/-- C4: the amount parser maps "2500", "2 500", "2500,50", "2.500,75" and
"2к" to 2500.00, 2500.00, 2500.50, 2500.75 and 2000.00 respectively,
rejects "-5" and "abc", and every accepted value is non-negative with at
most two decimal places (its value times 100 is an integer, i.e. the
rational's denominator after multiplying by 100 is 1). -/
theorem parse_amount_spec :
    parse_amount "2500" = some 2500 ∧
    parse_amount "2 500" = some 2500 ∧
    parse_amount "2500,50" = some (2500.50 : ℚ) ∧
    parse_amount "2.500,75" = some (2500.75 : ℚ) ∧
    parse_amount "2к" = some 2000 ∧
    parse_amount "-5" = none ∧
    parse_amount "abc" = none ∧
    ∀ s v, parse_amount s = some v → 0 ≤ v ∧ (v * 100).den = 1 :=
  ⟨parse_amount_eq_2500, parse_amount_eq_2500sp, parse_amount_eq_comma,
   parse_amount_eq_mixed, parse_amount_eq_k, parse_amount_eq_neg,
   parse_amount_eq_abc, parse_amount_valid⟩

/-- Witness for C4: the universal clause of `parse_amount_spec` applied at
the concrete accepted input "2к". -/
theorem parse_amount_spec_witness : 0 ≤ (2000 : ℚ) ∧ ((2000 : ℚ) * 100).den = 1 :=
  parse_amount_spec.2.2.2.2.2.2.2 "2к" 2000 parse_amount_eq_k

/-! ## Theorems: backend gateway (C7) -/

/-- C7 counterexample: a parsed response whose success flag is false and
whose backend error message happens to equal the fixed non-JSON text
surfaces exactly the same exception (class and message) as an unparseable
body, so backend-reported errors and transport (unparseable-body) errors
are not surfaced distinctly to callers: both are one generic runtime
error, distinguishable only by message text. -/
theorem gas_error_kinds_collide :
    gasRequest (.js false (some nonJsonMsg) (some noData)) = gasRequest (.badBody "<html>") ∧
    gasRequest (.badBody "<html>") = .error ⟨.runtimeError, nonJsonMsg⟩ := by
  constructor
  · simp [gasRequest, orDefaultError, nonJsonMsg]
  · rfl

/-- C7 (amended): every request body carries the acting user's id; a false
success flag surfaces the attached backend message (as a generic runtime
error, with a default when the message is empty or missing); an
unparseable body surfaces a runtime error with a fixed message; a timeout
surfaces a timeout error, which is distinguishable from every
backend-flag error by its exception class.  Backend-flag errors and
unparseable bodies, however, share the same exception class
(`gas_error_kinds_collide`). -/
theorem gas_request_contract :
    (∀ c uid, ("user_id", JVal.i uid) ∈ encodeBody c uid) ∧
    (∀ (e : String) d, e ≠ "" → gasRequest (.js false (some e) d) = .error ⟨.runtimeError, e⟩) ∧
    (∀ t, gasRequest (.badBody t) = .error ⟨.runtimeError, nonJsonMsg⟩) ∧
    (gasRequest .timeout = .error ⟨.timeoutError, ""⟩) ∧
    (∀ e d, gasRequest (.js false e d) ≠ gasRequest .timeout) := by
  refine ⟨?_, ?_, ?_, rfl, ?_⟩
  · intro c uid
    unfold encodeBody
    simp
  · intro e d he
    simp [gasRequest, orDefaultError, he]
  · intro t
    rfl
  · intro e d h
    simp [gasRequest] at h

/-- Witness for C7 (amended): the flag-false clause applied at a concrete
backend error message. -/
theorem gas_request_contract_witness :
    gasRequest (.js false (some "boom") none) = .error ⟨.runtimeError, "boom"⟩ :=
  gas_request_contract.2.1 "boom" none (by decide)

/-! ## Theorems: concrete dialogue traces -/

theorem c1_trace_eval :
    runTrace cfgDemo 1 initSession c1Events =
      (⟨some .stMenu, c1FinalUD, 4⟩, c1Effs) := by
  simp +decide [c1Events, c1FinalUD, c1Effs, runTrace, dispatch, convRoute, runHandler,
    cmd_start, on_menu, choose_type, expense_category, amount_received,
    payment_type_selected, comment_skip, withComment, save_and_finish_, mainScreenRes,
    mainScreenEffs, ownerScreenRes, ownerScreenEffs, employeeScreenRes, pushEffs,
    emit, setUD, sendM, deleteWorking, finishRes, gasRequest,
    okOracle, demoCats, noData, cfgDemo, is_allowed, is_owner, initSession, emptyUD,
    emptyTx, parse_amount_eq_2500]

theorem c3_trace_eval :
    runTrace cfgDemo 1 initSession c3Events =
      (⟨some .stAmount, c3FinalUD, 2⟩,
       [.gas .summary_month 1,
        .gas (.get_last_transactions 5) 1,
        .send 1 (.mainOwner noData noData) (some .mainOwner),
        .ansCb,
        .edit 1 (.lit chooseTypePrompt) (some .chooseType),
        .ansCb,
        .gas .get_categories 1,
        .edit 1 (.lit expCatPrompt) (some (.expCats ["Tools", "Rent"])),
        .ansCb,
        .edit 1 (.lit amountPrompt) none]) := by
  simp +decide [c3Events, c3FinalUD, runTrace, dispatch, convRoute, runHandler,
    cmd_start, on_menu, choose_type, expense_category, mainScreenRes, mainScreenEffs,
    ownerScreenRes, ownerScreenEffs, employeeScreenRes, pushEffs,
    emit, setUD, sendM, deleteWorking, finishRes, gasRequest,
    okOracle, demoCats, noData, cfgDemo, is_allowed, is_owner, initSession, emptyUD,
    emptyTx]

theorem c8_trace_eval :
    (runTrace cfgDemo 1 initSession c8Events).1 = ⟨some .stAmount, c8FinalUD, 4⟩ := by
  simp +decide [c8Events, c8FinalUD, runTrace, dispatch, convRoute, runHandler,
    cmd_start, on_menu, choose_type, expense_category, analysis_period, analysis_type,
    reportTail, periodLabel, mainScreenRes, mainScreenEffs, ownerScreenRes,
    ownerScreenEffs, employeeScreenRes, pushEffs, emit,
    setUD, sendM, deleteWorking, finishRes, gasRequest, okOracle, demoCats, noData,
    cfgDemo, is_allowed, is_owner, initSession, emptyUD, emptyTx]

/-- C1: in the owner end-to-end expense scenario (Menu → add → expense →
category "Tools" → text "2500" → payment "Cash" → skip comment) exactly one
`add` gateway call is issued, carrying type `"расход"` (the source's
literal for expense), category "Tools", amount 2500, payment type "Cash"
and empty comment; the last effect re-renders the owner Menu screen and
the session ends in the Menu state. -/
theorem expense_flow_single_add :
    (runTrace cfgDemo 1 initSession c1Events).2.filter isAddGas =
      [Eff.gas (.add (some "расход") (some "Tools") (some 2500) (some "Cash") "") 1] ∧
    (runTrace cfgDemo 1 initSession c1Events).1.conv = some ConvState.stMenu ∧
    (runTrace cfgDemo 1 initSession c1Events).2.getLast? =
      some (Eff.send 3 (OutText.mainOwner noData noData) (some Kb.mainOwner)) := by
  rw [c1_trace_eval]
  refine ⟨?_, rfl, rfl⟩
  rfl

/-- C2 counterexample: after the successful finalize of the expense flow
the session is back at Menu, but the draft record is not empty — it still
holds the full submitted transaction (only the next `choose_type` or
`/start` clears it), contradicting the claim that the draft is empty after
any finalize. -/
theorem finalize_keeps_draft :
    (runTrace cfgDemo 1 initSession c1Events).1.conv = some ConvState.stMenu ∧
    (runTrace cfgDemo 1 initSession c1Events).1.ud.tx =
      some ⟨some "расход", some "Tools", some 2500, some "Cash", some ""⟩ ∧
    (⟨some "расход", some "Tools", some 2500, some "Cash", some ""⟩ : Tx) ≠ emptyTx := by
  rw [c1_trace_eval]
  refine ⟨rfl, rfl, ?_⟩
  intro h
  have h2 := congrArg Tx.ty h
  simp [emptyTx] at h2

/-- C3 counterexample: the reachable state `ST_AMOUNT` (reached by the
concrete trace `c3Events`) has no handler for any `back:*` button press:
dispatching one leaves the session unchanged and produces no effects, so
not every reachable state handles a back input. -/
theorem amount_state_ignores_back :
    (runTrace cfgDemo 1 initSession c3Events).1.conv = some ConvState.stAmount ∧
    dispatch cfgDemo okOracle 1 (runTrace cfgDemo 1 initSession c3Events).1
        (.cb (.back .toMenu) 1) =
      ((runTrace cfgDemo 1 initSession c3Events).1, []) := by
  rw [c3_trace_eval]
  exact ⟨rfl, rfl⟩

/-- C8 counterexample: after an owner runs an analysis (storing the
pending period "month") and then starts an expense entry up to category
selection, the draft record and the pending analysis context are populated
at the same time, contradicting their claimed mutual exclusion. -/
theorem draft_and_pending_both_set :
    (runTrace cfgDemo 1 initSession c8Events).1.ud.analysisPeriod = some "month" ∧
    (runTrace cfgDemo 1 initSession c8Events).1.ud.tx =
      some ⟨some "расход", some "Tools", none, none, none⟩ ∧
    (⟨some "расход", some "Tools", none, none, none⟩ : Tx) ≠ emptyTx := by
  rw [c8_trace_eval]
  refine ⟨rfl, rfl, ?_⟩
  intro h
  have h2 := congrArg Tx.ty h
  simp [emptyTx] at h2

/-- C9 counterexample: a free-text message from a user who is not on the
allow-list (user 99) and has no active conversation matches no handler:
the session is unchanged, but no denial message (indeed no reply at all)
is produced, contradicting the claim that every such event is answered
with the fixed denial message. -/
theorem disallowed_text_ignored :
    is_allowed cfgDemo 99 = false ∧
    dispatch cfgDemo okOracle 99 initSession (.msg "привет") = (initSession, []) := by
  exact ⟨rfl, rfl⟩

/-! ## Theorems: routing and gating (C3, C5, C6, C8, C9) -/

/-- C3 (amended): a `back:*` button press is handled in exactly the seven
states whose `build_app` handler list registers `back_router`
(AddChooseType, ExpenseCategory, IncomeCategory, AnalysisPeriod,
AnalysisType, SpecialReports, DebtsChooseType); every other state —
including the reachable Menu, AmountEntry, PaymentTypeSelect,
CommentEntry, BalanceAmountEntry and DebtsAmountEntry — leaves a back
press unrouted. -/
theorem back_handled_exactly (st : ConvState) (t : BackTarget) (mid : ℕ) :
    convRoute st (.cb (.back t) mid) =
      if st ∈ backStates then some HKind.hBack else none := by
  cases st <;> simp [convRoute, backStates]

/-- C6: an allowed non-owner pressing the analysis, balance or debts menu
button gets the callback answered plus a non-blocking access-denied
alert, and nothing else: the session (state and all user data) is
returned unchanged, still at Menu.  The role itself is a function of the
immutable owner list, so it cannot change. -/
theorem role_gate_no_state_change (cfg : Cfg) (o : Oracle) (uid : ℤ) (ud : UserData)
    (nid mid : ℕ) (c : Cb)
    (hal : is_allowed cfg uid = true)
    (hno : is_owner cfg uid = false)
    (hc : c = .menuAnalysis ∨ c = .menuBalance ∨ c = .menuDebts) :
    dispatch cfg o uid ⟨some .stMenu, ud, nid⟩ (.cb c mid) =
      (⟨some .stMenu, ud, nid⟩, [Eff.ansCb, Eff.ansAlert accessDeniedAlert]) := by
  rcases hc with rfl | rfl | rfl <;>
    simp [dispatch, convRoute, runHandler, on_menu, finishRes, emit, hal, hno]

/-- Witness for C6: employee 2 of the demo configuration pressing the
analysis button. -/
theorem role_gate_no_state_change_witness :
    dispatch cfgDemo okOracle 2 ⟨some .stMenu, emptyUD, 1⟩ (.cb .menuAnalysis 1) =
      (⟨some .stMenu, emptyUD, 1⟩, [Eff.ansCb, Eff.ansAlert accessDeniedAlert]) :=
  role_gate_no_state_change cfgDemo okOracle 2 emptyUD 1 1 .menuAnalysis rfl rfl (Or.inl rfl)

/-- C5: in the comment state with an income draft, a whitespace-only text
message is rejected: the state stays CommentEntry, the draft (hence its
comment field) is untouched, and the last effect is the mandatory-comment
re-prompt. -/
theorem income_empty_comment_rejected (cfg : Cfg) (o : Oracle) (uid : ℤ) (ud : UserData)
    (nid : ℕ) (txt : String)
    (hal : is_allowed cfg uid = true)
    (hty : (ud.tx.getD emptyTx).ty = some "доход")
    (htr : pyStrip txt = "") :
    (dispatch cfg o uid ⟨some .stComment, ud, nid⟩ (.msg txt)).1.conv =
      some ConvState.stComment ∧
    (dispatch cfg o uid ⟨some .stComment, ud, nid⟩ (.msg txt)).1.ud.tx = ud.tx ∧
    ∃ i, (dispatch cfg o uid ⟨some .stComment, ud, nid⟩ (.msg txt)).2.getLast? =
      some (Eff.send i (.lit (commentRequiredPrompt (ud.tx.getD emptyTx))) none) := by
  cases hw : ud.workingMessageId <;>
    refine ⟨?_, ?_, ⟨nid, ?_⟩⟩ <;>
      simp [dispatch, convRoute, runHandler, comment_received, deleteWorking, emit,
        setUD, sendM, finishRes, hal, hty, htr, hw]

/-- Witness for C5: a concrete income draft with an all-space comment. -/
theorem income_empty_comment_rejected_witness :
    (dispatch cfgDemo okOracle 1 ⟨some .stComment, udWInc, 5⟩ (.msg "   ")).1.conv =
      some ConvState.stComment ∧
    (dispatch cfgDemo okOracle 1 ⟨some .stComment, udWInc, 5⟩ (.msg "   ")).1.ud.tx =
      udWInc.tx ∧
    ∃ i, (dispatch cfgDemo okOracle 1 ⟨some .stComment, udWInc, 5⟩ (.msg "   ")).2.getLast? =
      some (Eff.send i (.lit (commentRequiredPrompt (udWInc.tx.getD emptyTx))) none) :=
  income_empty_comment_rejected cfgDemo okOracle 1 udWInc 5 "   " rfl rfl (by decide)

/-- C8 (amended): selecting a transaction kind in AddChooseType (the start
of every entry flow) resets the draft to an empty dict — whether the
category fetch succeeds or fails — while leaving every pending-context
field (analysis period, balance account, debt type) exactly as it was:
the draft is reset at flow start, but pending context is never cleared by
a transaction flow, so the two are not mutually exclusive. -/
theorem entry_flow_resets_draft_keeps_pending (cfg : Cfg) (o : Oracle) (uid : ℤ)
    (ud : UserData) (nid mid : ℕ) (c : Cb)
    (hc : c = Cb.typeExpense ∨ c = Cb.typeIncome ∨ c = Cb.typeOther) :
    (dispatch cfg o uid ⟨some .stAddChooseType, ud, nid⟩ (.cb c mid)).1.ud.tx =
      some emptyTx ∧
    (dispatch cfg o uid ⟨some .stAddChooseType, ud, nid⟩ (.cb c mid)).1.ud.analysisPeriod =
      ud.analysisPeriod ∧
    (dispatch cfg o uid ⟨some .stAddChooseType, ud, nid⟩ (.cb c mid)).1.ud.debtType =
      ud.debtType ∧
    (dispatch cfg o uid ⟨some .stAddChooseType, ud, nid⟩ (.cb c mid)).1.ud.balancePaymentType =
      ud.balancePaymentType := by
  rcases hc with rfl | rfl | rfl <;>
    cases hg : gasRequest (o .get_categories) <;>
      simp only [dispatch, convRoute, runHandler, choose_type, emit, setUD,
        sendM, finishRes, hg] <;>
      (repeat' split) <;>
      simp [finishRes, sendM, emit]

/-- Witness for C8 (amended): starting an expense entry with a stale
pending analysis period. -/
theorem entry_flow_resets_draft_keeps_pending_witness :
    (dispatch cfgDemo okOracle 1
        ⟨some .stAddChooseType, { emptyUD with analysisPeriod := some "month" }, 3⟩
        (.cb .typeExpense 1)).1.ud.tx = some emptyTx ∧
    (dispatch cfgDemo okOracle 1
        ⟨some .stAddChooseType, { emptyUD with analysisPeriod := some "month" }, 3⟩
        (.cb .typeExpense 1)).1.ud.analysisPeriod =
      ({ emptyUD with analysisPeriod := some "month" } : UserData).analysisPeriod ∧
    (dispatch cfgDemo okOracle 1
        ⟨some .stAddChooseType, { emptyUD with analysisPeriod := some "month" }, 3⟩
        (.cb .typeExpense 1)).1.ud.debtType =
      ({ emptyUD with analysisPeriod := some "month" } : UserData).debtType ∧
    (dispatch cfgDemo okOracle 1
        ⟨some .stAddChooseType, { emptyUD with analysisPeriod := some "month" }, 3⟩
        (.cb .typeExpense 1)).1.ud.balancePaymentType =
      ({ emptyUD with analysisPeriod := some "month" } : UserData).balancePaymentType :=
  entry_flow_resets_draft_keeps_pending cfgDemo okOracle 1
    { emptyUD with analysisPeriod := some "month" } 3 1 .typeExpense (Or.inl rfl)

theorem dispatch_disallowed (cfg : Cfg) (o : Oracle) (uid : ℤ) (s : Session) (ev : Event)
    (hd : is_allowed cfg uid = false) (h1 : s.conv = none) :
    (dispatch cfg o uid s ev).1.conv = none ∧
    (dispatch cfg o uid s ev).1.ud = s.ud ∧
    ∀ e ∈ (dispatch cfg o uid s ev).2, ∃ i, e = Eff.send i (.lit DENY_TEXT) none := by
  cases ev <;>
    simp [dispatch, cmd_start, cmd_help, finishRes, sendM, emit, hd, h1]

/-- C9 (amended): for a user off the allow-list, no event sequence ever
creates or mutates session state (the conversation stays inactive and
`user_data` stays empty), and every reply the system produces for such a
user is the fixed denial message — but only the `/start` and `/help`
commands are answered at all; button presses and free-text messages match
no handler and are silently ignored. -/
theorem disallowed_never_mutates (cfg : Cfg) (uid : ℤ)
    (hd : is_allowed cfg uid = false) (evs : List (Oracle × Event)) :
    ∀ s0 : Session, s0.conv = none → s0.ud = emptyUD →
      (runTrace cfg uid s0 evs).1.conv = none ∧
      (runTrace cfg uid s0 evs).1.ud = emptyUD ∧
      ∀ e ∈ (runTrace cfg uid s0 evs).2, ∃ i, e = Eff.send i (.lit DENY_TEXT) none := by
  induction evs with
  | nil =>
      intro s0 h1 h2
      simp [runTrace, h1, h2]
  | cons p rest ih =>
      intro s0 h1 h2
      obtain ⟨o, ev⟩ := p
      obtain ⟨hc, hu, he⟩ := dispatch_disallowed cfg o uid s0 ev hd h1
      have hrest := ih (dispatch cfg o uid s0 ev).1 hc (by rw [hu, h2])
      simp only [runTrace]
      refine ⟨hrest.1, hrest.2.1, ?_⟩
      intro e hme
      rcases List.mem_append.mp hme with hx | hx
      · exact he e hx
      · exact hrest.2.2 e hx

/-- Witness for C9 (amended): user 99 sends `/start`, a button press and a
text message; the session stays untouched and the only output is the
denial message. -/
theorem disallowed_never_mutates_witness :
    (runTrace cfgDemo 99 initSession
        [(okOracle, .start), (okOracle, .cb .menuAdd 1), (okOracle, .msg "hi")]).1.conv =
      none ∧
    (runTrace cfgDemo 99 initSession
        [(okOracle, .start), (okOracle, .cb .menuAdd 1), (okOracle, .msg "hi")]).1.ud =
      emptyUD ∧
    ∀ e ∈ (runTrace cfgDemo 99 initSession
        [(okOracle, .start), (okOracle, .cb .menuAdd 1), (okOracle, .msg "hi")]).2,
      ∃ i, e = Eff.send i (.lit DENY_TEXT) none :=
  disallowed_never_mutates cfgDemo 99 rfl
    [(okOracle, .start), (okOracle, .cb .menuAdd 1), (okOracle, .msg "hi")]
    initSession rfl rfl

/-! ## Theorems: finalize behaviour (C2) -/

theorem mainScreenRes_ok (cfg : Cfg) (o : Oracle) (uid : ℤ)
    (hs : ∃ d, gasRequest (o .summary_month) = .ok d)
    (h5 : ∃ d, gasRequest (o (.get_last_transactions 5)) = .ok d)
    (h10 : ∃ d, gasRequest (o (.get_last_transactions 10)) = .ok d) :
    ∃ t kb, mainScreenRes cfg o uid = .ok (t, kb) := by
  obtain ⟨ds, hds⟩ := hs
  obtain ⟨d5, hd5⟩ := h5
  obtain ⟨d10, hd10⟩ := h10
  cases how : is_owner cfg uid
  · exact ⟨.mainEmployee d10, .mainEmployee,
      by simp [mainScreenRes, employeeScreenRes, how, hd10]⟩
  · exact ⟨.mainOwner ds d5, .mainOwner,
      by simp [mainScreenRes, ownerScreenRes, how, hds, hd5]⟩

theorem save_frame (cfg : Cfg) (o : Oracle) (uid : ℤ) (m : Mach)
    (hs : ∃ d, gasRequest (o .summary_month) = .ok d)
    (h5 : ∃ d, gasRequest (o (.get_last_transactions 5)) = .ok d)
    (h10 : ∃ d, gasRequest (o (.get_last_transactions 10)) = .ok d)
    (ha : ((m.ud.tx.getD emptyTx).amount).isSome = true) :
    (save_and_finish_ cfg o uid m).2 = none ∧
    (save_and_finish_ cfg o uid m).1.ud.tx = m.ud.tx := by
  obtain ⟨av, hav⟩ := Option.isSome_iff_exists.mp ha
  obtain ⟨tt, kb, hok⟩ := mainScreenRes_ok cfg o uid hs h5 h10
  unfold save_and_finish_
  cases hw : m.ud.workingMessageId <;>
    simp only [deleteWorking, hw, emit, sendM, pushEffs, hav, hok] <;>
    split <;>
    simp

theorem comment_skip_menu (cfg : Cfg) (o : Oracle) (uid : ℤ) (m : Mach)
    (hs : ∃ d, gasRequest (o .summary_month) = .ok d)
    (h5 : ∃ d, gasRequest (o (.get_last_transactions 5)) = .ok d)
    (h10 : ∃ d, gasRequest (o (.get_last_transactions 10)) = .ok d)
    (ha : ((m.ud.tx.getD emptyTx).amount).isSome = true) :
    (comment_skip cfg o uid m).out = .toState .stMenu ∧
    (comment_skip cfg o uid m).m.ud.tx =
      some { m.ud.tx.getD emptyTx with comment := some "" } := by
  unfold comment_skip
  simp only [emit, setUD]
  have hsf := save_frame cfg o uid
    ⟨withComment "" m.ud, m.nid, m.effs ++ [Eff.ansCb]⟩ hs h5 h10
    (by simpa [withComment] using ha)
  rcases hsp : save_and_finish_ cfg o uid
      ⟨withComment "" m.ud, m.nid, m.effs ++ [Eff.ansCb]⟩ with ⟨m2, exc⟩
  rw [hsp] at hsf
  obtain ⟨hnone, htx⟩ := hsf
  dsimp only at hnone htx
  subst hnone
  simp [htx, withComment]

theorem mainScreenRes_shape (cfg : Cfg) (o : Oracle) (uid : ℤ) (tt : OutText)
    (kb : Kb) (h : mainScreenRes cfg o uid = .ok (tt, kb)) :
    (∀ tv, tt ≠ OutText.savedConfirm tv) ∧ ∀ e2, tt ≠ OutText.errorText e2 := by
  unfold mainScreenRes ownerScreenRes employeeScreenRes at h
  repeat' split at h
  all_goals first
    | exact Except.noConfusion h
    | (injection h with h2;
       injection h2 with h3 h4;
       rw [← h3];
       exact ⟨fun tv hco => OutText.noConfusion hco,
              fun e2 hco => OutText.noConfusion hco⟩)

theorem mainScreenEffs_no_send (cfg : Cfg) (o : Oracle) (uid : ℤ) (i : ℕ)
    (tv : OutText) (kb2 : Option Kb) :
    Eff.send i tv kb2 ∉ mainScreenEffs cfg o uid := by
  unfold mainScreenEffs ownerScreenEffs
  repeat' split
  all_goals simp

theorem save_shows (cfg : Cfg) (o : Oracle) (uid : ℤ) (m : Mach) (tt : OutText)
    (kb : Kb) (av : ℚ)
    (hok : mainScreenRes cfg o uid = .ok (tt, kb))
    (hav : (m.ud.tx.getD emptyTx).amount = some av)
    (hpre : ∀ i tv kb2, Eff.send i tv kb2 ∉ m.effs) :
    (save_and_finish_ cfg o uid m).2 = none ∧
    (save_and_finish_ cfg o uid m).1.ud.tx = m.ud.tx ∧
    finalizeShows o (m.ud.tx.getD emptyTx) (save_and_finish_ cfg o uid m).1.effs := by
  obtain ⟨hsh1, hsh2⟩ := mainScreenRes_shape cfg o uid tt kb hok
  unfold save_and_finish_ finalizeShows
  rcases hw : m.ud.workingMessageId with _ | w <;>
    simp only [deleteWorking, hw, emit, sendM, pushEffs, hav, hok] <;>
    split
  all_goals rename_i x hg
  all_goals refine ⟨rfl, rfl, fun e2 he2 => ?_, fun d2 hd2 => ?_⟩
  all_goals first
    | (rw [hg] at he2; exact Except.noConfusion he2)
    | (rw [hg] at hd2; exact Except.noConfusion hd2)
    | ((rw [hg] at he2;
        injection he2 with h3;
        subst h3;
        refine ⟨⟨m.nid, by simp⟩, ?_⟩;
        intro i2 tv kb2 hmem;
        simp only [List.mem_append, List.mem_cons, List.mem_singleton,
          List.not_mem_nil, or_false] at hmem;
        repeat' rcases hmem with hmem | hmem) <;>
       first
         | exact hpre _ _ _ hmem
         | exact mainScreenEffs_no_send cfg o uid _ _ _ hmem
         | exact hsh1 _ rfl
         | exact hsh2 _ rfl
         | exact Eff.noConfusion hmem
         | (injection hmem with h1 h2 h3b; exact OutText.noConfusion h2)
         | (injection hmem with h1 h2 h3b; exact hsh1 _ h2.symm)
         | (injection hmem with h1 h2 h3b; exact hsh2 _ h2.symm))
    | ((refine ⟨⟨m.nid, by simp⟩, ?_⟩;
        intro i2 tv kb2 hmem;
        simp only [List.mem_append, List.mem_cons, List.mem_singleton,
          List.not_mem_nil, or_false] at hmem;
        repeat' rcases hmem with hmem | hmem) <;>
       first
         | exact hpre _ _ _ hmem
         | exact mainScreenEffs_no_send cfg o uid _ _ _ hmem
         | exact hsh1 _ rfl
         | exact hsh2 _ rfl
         | exact Eff.noConfusion hmem
         | (injection hmem with h1 h2 h3b; exact OutText.noConfusion h2)
         | (injection hmem with h1 h2 h3b; exact hsh1 _ h2.symm)
         | (injection hmem with h1 h2 h3b; exact hsh2 _ h2.symm))

/-- C2 (amended): finalizing from the comment state — via the skip button
or an accepted comment message — returns the session to Menu whether the
`add` call succeeds or the backend rejects it (provided the menu
re-render's own backend reads succeed; their failure is uncaught and keeps
the comment state); on an `add` failure the error text is sent in place of
the saved acknowledgment, on success the acknowledgment in place of any
error text; and the draft record is NOT discarded: it still holds the full
submitted transaction with the just-stored comment, reset only by the next
entry flow or `/start`. -/
theorem finalize_returns_to_menu (cfg : Cfg) (o : Oracle) (uid : ℤ) (ud : UserData)
    (nid mid : ℕ) (txt : String)
    (hs : ∃ d, gasRequest (o .summary_month) = .ok d)
    (h5 : ∃ d, gasRequest (o (.get_last_transactions 5)) = .ok d)
    (h10 : ∃ d, gasRequest (o (.get_last_transactions 10)) = .ok d)
    (ha : ((ud.tx.getD emptyTx).amount).isSome = true)
    (hal : is_allowed cfg uid = true)
    (hcm : ¬((ud.tx.getD emptyTx).ty = some "доход" ∧ pyStrip txt = "")) :
    ((dispatch cfg o uid ⟨some .stComment, ud, nid⟩ (.cb .commentSkip mid)).1.conv =
        some ConvState.stMenu ∧
      (dispatch cfg o uid ⟨some .stComment, ud, nid⟩ (.cb .commentSkip mid)).1.ud.tx =
        some { ud.tx.getD emptyTx with comment := some "" } ∧
      finalizeShows o { ud.tx.getD emptyTx with comment := some "" }
        (dispatch cfg o uid ⟨some .stComment, ud, nid⟩ (.cb .commentSkip mid)).2) ∧
    ((dispatch cfg o uid ⟨some .stComment, ud, nid⟩ (.msg txt)).1.conv =
        some ConvState.stMenu ∧
      (dispatch cfg o uid ⟨some .stComment, ud, nid⟩ (.msg txt)).1.ud.tx =
        some { ud.tx.getD emptyTx with comment := some (pyStrip txt) } ∧
      finalizeShows o { ud.tx.getD emptyTx with comment := some (pyStrip txt) }
        (dispatch cfg o uid ⟨some .stComment, ud, nid⟩ (.msg txt)).2) := by
  obtain ⟨tt, kb, hok⟩ := mainScreenRes_ok cfg o uid hs h5 h10
  obtain ⟨av, hav⟩ := Option.isSome_iff_exists.mp ha
  constructor
  · have hsv := save_shows cfg o uid ⟨withComment "" ud, nid, [Eff.ansCb]⟩ tt kb av
      hok hav (by intro i tv kb2 hmem; simp at hmem)
    rcases hsp : save_and_finish_ cfg o uid ⟨withComment "" ud, nid, [Eff.ansCb]⟩
      with ⟨m2, exc⟩
    rw [hsp] at hsv
    obtain ⟨hnone, htx, hshow⟩ := hsv
    dsimp only at hnone htx hshow
    subst hnone
    simp only [dispatch, convRoute, runHandler, comment_skip, emit, setUD,
      List.nil_append, hsp, finishRes]
    refine ⟨?_, ?_, ?_⟩
    · trivial
    · rw [htx]
      simp [withComment]
    · exact hshow
  · have hsv := save_shows cfg o uid
      ⟨withComment (pyStrip txt) ud, nid, [Eff.delUserMsg]⟩ tt kb av
      hok hav (by intro i tv kb2 hmem; simp at hmem)
    rcases hsp2 : save_and_finish_ cfg o uid
        ⟨withComment (pyStrip txt) ud, nid, [Eff.delUserMsg]⟩ with ⟨m2, exc⟩
    rw [hsp2] at hsv
    obtain ⟨hnone, htx, hshow⟩ := hsv
    dsimp only at hnone htx hshow
    subst hnone
    simp only [dispatch, convRoute, runHandler, comment_received, hal, emit, setUD,
      List.nil_append, if_true]
    rw [if_neg hcm]
    simp only [hsp2, finishRes]
    refine ⟨?_, ?_, ?_⟩
    · trivial
    · rw [htx]
      simp [withComment]
    · exact hshow

/-- Witness for C2 (amended): a ready expense draft finalized both ways —
by the skip button and by the accepted comment "note" — under an all-ok
backend. -/
theorem finalize_returns_to_menu_witness :
    ((dispatch cfgDemo okOracle 1 ⟨some .stComment, udW, 5⟩ (.cb .commentSkip 1)).1.conv =
        some ConvState.stMenu ∧
      (dispatch cfgDemo okOracle 1 ⟨some .stComment, udW, 5⟩ (.cb .commentSkip 1)).1.ud.tx =
        some { udW.tx.getD emptyTx with comment := some "" } ∧
      finalizeShows okOracle { udW.tx.getD emptyTx with comment := some "" }
        (dispatch cfgDemo okOracle 1 ⟨some .stComment, udW, 5⟩ (.cb .commentSkip 1)).2) ∧
    ((dispatch cfgDemo okOracle 1 ⟨some .stComment, udW, 5⟩ (.msg "note")).1.conv =
        some ConvState.stMenu ∧
      (dispatch cfgDemo okOracle 1 ⟨some .stComment, udW, 5⟩ (.msg "note")).1.ud.tx =
        some { udW.tx.getD emptyTx with comment := some (pyStrip "note") } ∧
      finalizeShows okOracle { udW.tx.getD emptyTx with comment := some (pyStrip "note") }
        (dispatch cfgDemo okOracle 1 ⟨some .stComment, udW, 5⟩ (.msg "note")).2) :=
  finalize_returns_to_menu cfgDemo okOracle 1 udW 5 1 "note"
    ⟨noData, rfl⟩ ⟨noData, rfl⟩ ⟨noData, rfl⟩ rfl rfl (by decide)

/-! ## Theorems: the income payment-type invariant (C10) -/

theorem effsOk_nil : effsOk [] := fun e he => absurd he (List.not_mem_nil e)

theorem effsOk_snoc {l : List Eff} {e : Eff} (hl : effsOk l) (he : addEffOk e) :
    effsOk (l ++ [e]) := by
  intro x hx
  rcases List.mem_append.mp hx with hx | hx
  · exact hl x hx
  · rw [List.mem_singleton.mp hx]
    exact he

theorem txInvUD_getD {ud : UserData} (h : txInvUD ud) : txInvTx (ud.tx.getD emptyTx) := by
  cases htx : ud.tx with
  | none =>
      intro he
      simp [emptyTx] at he
  | some t => exact h t htx


theorem effsOk_append {a b : List Eff} (ha : effsOk a) (hb : effsOk b) :
    effsOk (a ++ b) := by
  intro e he
  rcases List.mem_append.mp he with h | h
  exacts [ha e h, hb e h]

theorem effsOk_singleton {e : Eff} (he : addEffOk e) : effsOk [e] := by
  intro x hx
  rw [List.mem_singleton.mp hx]
  exact he

theorem ownerScreenEffs_ok (o : Oracle) (uid : ℤ) : effsOk (ownerScreenEffs o uid) := by
  unfold ownerScreenEffs
  split
  all_goals intro e he
  all_goals simp only [List.mem_cons, List.mem_singleton, List.not_mem_nil, or_false] at he
  all_goals first
    | (rw [he]; trivial)
    | (rcases he with he | he <;> (rw [he]; trivial))

theorem mainScreenEffs_ok (cfg : Cfg) (o : Oracle) (uid : ℤ) :
    effsOk (mainScreenEffs cfg o uid) := by
  unfold mainScreenEffs
  split
  · exact ownerScreenEffs_ok o uid
  · intro e he
    simp only [List.mem_singleton] at he
    rw [he]
    trivial

theorem deleteWorking_tx (m : Mach) : (deleteWorking m).ud.tx = m.ud.tx := by
  unfold deleteWorking
  split <;> rfl

theorem deleteWorking_ud (m : Mach) :
    (deleteWorking m).ud = { m.ud with workingMessageId := none } := by
  unfold deleteWorking
  split <;> rfl

theorem deleteWorking_effs (m : Mach) (h : effsOk m.effs) :
    effsOk (deleteWorking m).effs := by
  unfold deleteWorking
  split
  · exact effsOk_append h (effsOk_singleton trivial)
  · exact h

theorem save_effs (cfg : Cfg) (o : Oracle) (uid : ℤ) (m : Mach)
    (hq : txInvTx (m.ud.tx.getD emptyTx)) :
    (save_and_finish_ cfg o uid m).1.ud.tx = m.ud.tx ∧
    (effsOk m.effs → effsOk (save_and_finish_ cfg o uid m).1.effs) := by
  unfold save_and_finish_
  cases hw : m.ud.workingMessageId <;>
    simp only [deleteWorking, hw, emit, sendM, pushEffs] <;>
    repeat' split
  all_goals refine ⟨rfl, fun hok => ?_⟩
  all_goals intro e he
  all_goals simp only [List.mem_append, List.mem_singleton] at he
  all_goals repeat' rcases he with he | he
  all_goals first
    | exact hok e he
    | exact mainScreenEffs_ok cfg o uid e he
    | (rw [he]; trivial)
    | (rw [he]; exact hq)
    | trivial
    | exact hq

theorem finishRes_ud (st : Option ConvState) (r : HRes) :
    (finishRes st r).1.ud = r.m.ud := by
  rcases r with ⟨rm, out⟩
  cases out <;> rfl

theorem finishRes_conv (st : Option ConvState) (r : HRes) :
    (finishRes st r).1.conv = outState st r.out := by
  rcases r with ⟨rm, out⟩
  cases out <;> rfl

theorem finishRes_effs (st : Option ConvState) (r : HRes) (h : effsOk r.m.effs) :
    effsOk (finishRes st r).2 := by
  rcases r with ⟨rm, out⟩
  cases out
  case raised e => exact effsOk_snoc h trivial
  all_goals exact h

theorem txInvUD_none {ud : UserData} (h : ud.tx = none) : txInvUD ud := by
  intro t ht
  rw [h] at ht
  cases ht

theorem txInvUD_of_tx_eq {ud1 ud2 : UserData} (h : ud2.tx = ud1.tx)
    (h1 : txInvUD ud1) : txInvUD ud2 := by
  intro t ht
  rw [h] at ht
  exact h1 t ht

theorem txInvUD_setTx {ud : UserData} {t : Tx} (h : txInvTx t) :
    txInvUD { ud with tx := some t } := by
  intro t2 ht2
  have h2 : some t = some t2 := ht2
  injection h2 with h3
  rw [← h3]
  exact h

theorem txInvTx_withComment {t : Tx} (h : txInvTx t) (c : Option String) :
    txInvTx { t with comment := c } := h

theorem txInvUD_withComment {ud : UserData} (h : txInvUD ud) (c : String) :
    txInvUD (withComment c ud) :=
  txInvUD_setTx (txInvTx_withComment (txInvUD_getD h) (some c))

theorem hstep_of_hcore {st : ConvState} {m : Mach} {r : HRes}
    (h : hcore m r) (hst : st ≠ ConvState.stExpPaymentType) : hstep st m r := by
  obtain ⟨h1, h2, h3⟩ := h
  refine ⟨h1, h2, ?_⟩
  intro hout
  rcases hr : r.out with s2 | _ | _ | e
  · rw [hr] at hout
    simp only [outState, Option.some.injEq] at hout
    exact h3 s2 hr hout
  · rw [hr] at hout
    exact Option.noConfusion hout
  · rw [hr] at hout
    simp only [outState, Option.some.injEq] at hout
    exact absurd hout hst
  · rw [hr] at hout
    simp only [outState, Option.some.injEq] at hout
    exact absurd hout hst

theorem hstep_keep {st : ConvState} {m : Mach}
    (hud : txInvUD m.ud)
    (hty : st = ConvState.stExpPaymentType →
      (m.ud.tx.getD emptyTx).ty ≠ some "доход") :
    hstep st m ⟨m, .keep⟩ := by
  refine ⟨hud, id, ?_⟩
  intro hout
  simp only [outState, Option.some.injEq] at hout
  exact hty hout

theorem route_not_payment (st : ConvState) (ev : Event) (k : HKind)
    (h : convRoute st ev = some k) (hk : k ≠ HKind.hPayment) :
    st ≠ ConvState.stExpPaymentType := by
  intro hst
  subst hst
  cases ev
  case cb c mid =>
    cases c
    case payment i =>
      injection h with h2
      exact hk h2.symm
    all_goals exact Option.noConfusion h
  all_goals exact Option.noConfusion h

theorem route_payment (st : ConvState) (ev : Event)
    (h : convRoute st ev = some HKind.hPayment) :
    st = ConvState.stExpPaymentType := by
  cases st <;> cases ev <;> try exact Option.noConfusion h
  all_goals try (injection h with h2; cases h2)
  all_goals rename_i c mid
  all_goals cases c <;> first
    | rfl
    | exact Option.noConfusion h
    | (injection h with h2; cases h2)

theorem txInvTx_empty : txInvTx emptyTx := fun h => Option.noConfusion h

theorem hcore_pre {m1 m2 : Mach} {r : HRes}
    (h : hcore m2 r) (hp : effsOk m1.effs → effsOk m2.effs) : hcore m1 r :=
  ⟨h.1, fun hok => h.2.1 (hp hok), h.2.2⟩

theorem on_menu_core (cfg : Cfg) (o : Oracle) (uid : ℤ) (c : Cb) (mid : ℕ)
    (m : Mach) (hud : txInvUD m.ud) : hcore m (on_menu cfg o uid c mid m) := by
  unfold on_menu hcore
  simp only [emit, setUD, sendM, pushEffs]
  repeat' split
  all_goals refine ⟨?_, fun hok => ?_, ?_⟩
  all_goals first
    | exact fun t ht => hud t ht
    | (intro s2 h1 h2; first
        | exact Outcome.noConfusion h1
        | (injection h1 with h1; subst h1; exact ConvState.noConfusion h2))
    | ((intro e he;
        simp only [List.mem_append, List.mem_singleton] at he;
        repeat' rcases he with he | he) <;>
       (first | exact hok e he | (rw [he]; trivial) | trivial))

theorem back_router_core (cfg : Cfg) (o : Oracle) (uid : ℤ) (t : BackTarget)
    (mid : ℕ) (m : Mach) (hud : txInvUD m.ud) :
    hcore m (back_router cfg o uid t mid m) := by
  unfold back_router hcore deleteWorking
  simp only [emit, setUD, sendM, pushEffs]
  repeat' split
  all_goals refine ⟨?_, fun hok => ?_, ?_⟩
  all_goals first
    | exact fun t2 ht2 => hud t2 ht2
    | (intro s2 h1 h2; first
        | exact Outcome.noConfusion h1
        | (injection h1 with h1; subst h1; exact ConvState.noConfusion h2))
    | ((intro e he;
        simp only [List.mem_append, List.mem_singleton] at he;
        repeat' rcases he with he | he) <;>
       (first
         | exact hok e he
         | exact mainScreenEffs_ok cfg o uid e he
         | (rw [he]; trivial)
         | trivial))

theorem balance_edit_start_core (b : BalanceBtn) (mid : ℕ) (m : Mach)
    (hud : txInvUD m.ud) : hcore m (balance_edit_start b mid m) := by
  unfold balance_edit_start hcore
  simp only [emit, setUD, sendM, pushEffs]
  refine ⟨?_, fun hok => ?_, ?_⟩
  · exact fun t2 ht2 => hud t2 ht2
  · (intro e he;
     simp only [List.mem_append, List.mem_singleton] at he;
     repeat' rcases he with he | he) <;>
    (first | exact hok e he | (rw [he]; trivial) | trivial)
  · intro s2 h1 h2
    injection h1 with h1
    subst h1
    exact ConvState.noConfusion h2

theorem analysis_period_core (p : String) (mid : ℕ) (m : Mach)
    (hud : txInvUD m.ud) : hcore m (analysis_period p mid m) := by
  unfold analysis_period hcore
  simp only [emit, setUD, sendM, pushEffs]
  repeat' split
  all_goals refine ⟨?_, fun hok => ?_, ?_⟩
  all_goals first
    | exact fun t2 ht2 => hud t2 ht2
    | (intro s2 h1 h2; first
        | exact Outcome.noConfusion h1
        | (injection h1 with h1; subst h1; exact ConvState.noConfusion h2))
    | ((intro e he;
        simp only [List.mem_append, List.mem_singleton] at he;
        repeat' rcases he with he | he) <;>
       (first | exact hok e he | (rw [he]; trivial) | trivial))

theorem debts_choose_type_core (o : Oracle) (uid : ℤ) (t : String) (mid : ℕ)
    (m : Mach) (hud : txInvUD m.ud) : hcore m (debts_choose_type o uid t mid m) := by
  unfold debts_choose_type hcore
  simp only [emit, setUD, sendM, pushEffs]
  repeat' split
  all_goals refine ⟨?_, fun hok => ?_, ?_⟩
  all_goals first
    | exact fun t2 ht2 => hud t2 ht2
    | (intro s2 h1 h2; first
        | exact Outcome.noConfusion h1
        | (injection h1 with h1; subst h1; exact ConvState.noConfusion h2))
    | ((intro e he;
        simp only [List.mem_append, List.mem_singleton] at he;
        repeat' rcases he with he | he) <;>
       (first | exact hok e he | (rw [he]; trivial) | trivial))

theorem debts_edit_start_core (mid : ℕ) (m : Mach) (hud : txInvUD m.ud) :
    hcore m (debts_edit_start mid m) := by
  unfold debts_edit_start hcore
  simp only [emit, setUD, sendM, pushEffs]
  refine ⟨?_, fun hok => ?_, ?_⟩
  · exact fun t2 ht2 => hud t2 ht2
  · (intro e he;
     simp only [List.mem_append, List.mem_singleton] at he;
     repeat' rcases he with he | he) <;>
    (first | exact hok e he | (rw [he]; trivial) | trivial)
  · intro s2 h1 h2
    injection h1 with h1
    subst h1
    exact ConvState.noConfusion h2

theorem reportTail_core (cfg : Cfg) (o : Oracle) (uid : ℤ) (cmd : GasCmd)
    (f : GasData → OutText) (m : Mach) (hud : txInvUD m.ud)
    (hcmd : addEffOk (Eff.gas cmd uid)) : hcore m (reportTail cfg o uid cmd f m) := by
  unfold reportTail hcore
  simp only [emit, setUD, sendM, pushEffs]
  repeat' split
  all_goals refine ⟨?_, fun hok => ?_, ?_⟩
  all_goals first
    | exact fun t2 ht2 => hud t2 ht2
    | (intro s2 h1 h2; first
        | exact Outcome.noConfusion h1
        | (injection h1 with h1; subst h1; exact ConvState.noConfusion h2))
    | ((intro e he;
        simp only [List.mem_append, List.mem_singleton] at he;
        repeat' rcases he with he | he) <;>
       (first
         | exact hok e he
         | exact mainScreenEffs_ok cfg o uid e he
         | (rw [he]; exact hcmd)
         | (rw [he]; trivial)
         | trivial
         | exact hcmd))

theorem analysis_type_core (cfg : Cfg) (o : Oracle) (uid : ℤ) (a : String)
    (m : Mach) (hud : txInvUD m.ud) : hcore m (analysis_type cfg o uid a m) := by
  unfold analysis_type
  dsimp only
  split
  · exact hcore_pre
      (reportTail_core cfg o uid _ _ _
        (txInvUD_of_tx_eq (deleteWorking_tx _) hud) True.intro)
      (fun hok => deleteWorking_effs _ (effsOk_snoc hok trivial))
  · exact hcore_pre
      (reportTail_core cfg o uid _ _ _
        (txInvUD_of_tx_eq (deleteWorking_tx _) hud) True.intro)
      (fun hok => deleteWorking_effs _ (effsOk_snoc hok trivial))

theorem special_reports_core (cfg : Cfg) (o : Oracle) (uid : ℤ) (s : String)
    (m : Mach) (hud : txInvUD m.ud) : hcore m (special_reports cfg o uid s m) := by
  unfold special_reports
  dsimp only
  split
  case isTrue =>
    exact hcore_pre
      (reportTail_core cfg o uid _ _ _
        (txInvUD_of_tx_eq (deleteWorking_tx _) hud) True.intro)
      (fun hok => deleteWorking_effs _ (effsOk_snoc hok trivial))
  case isFalse =>
    split
    case isTrue =>
      exact hcore_pre
        (reportTail_core cfg o uid _ _ _
          (txInvUD_of_tx_eq (deleteWorking_tx _) hud) True.intro)
        (fun hok => deleteWorking_effs _ (effsOk_snoc hok trivial))
    case isFalse =>
      split
      case isTrue =>
        exact hcore_pre
          (reportTail_core cfg o uid _ _ _
            (txInvUD_of_tx_eq (deleteWorking_tx _) hud) True.intro)
          (fun hok => deleteWorking_effs _ (effsOk_snoc hok trivial))
      case isFalse =>
        refine ⟨txInvUD_of_tx_eq (deleteWorking_tx _) hud, fun hok => ?_, ?_⟩
        · exact deleteWorking_effs _ (effsOk_snoc hok trivial)
        · intro s2 h1 h2
          exact Outcome.noConfusion h1

theorem balance_edit_received_core (cfg : Cfg) (o : Oracle) (uid : ℤ)
    (txt : String) (m : Mach) (hud : txInvUD m.ud) :
    hcore m (balance_edit_received cfg o uid txt m) := by
  unfold balance_edit_received hcore deleteWorking
  simp only [emit, setUD, sendM, pushEffs]
  repeat' split
  all_goals refine ⟨?_, fun hok => ?_, ?_⟩
  all_goals first
    | exact fun t2 ht2 => hud t2 ht2
    | (intro s2 h1 h2; first
        | exact Outcome.noConfusion h1
        | (injection h1 with h1; subst h1; exact ConvState.noConfusion h2))
    | ((intro e he;
        simp only [List.mem_append, List.mem_singleton] at he;
        repeat' rcases he with he | he) <;>
       (first
         | exact hok e he
         | exact ownerScreenEffs_ok o uid e he
         | (rw [he]; trivial)
         | trivial))

theorem debts_edit_received_core (cfg : Cfg) (o : Oracle) (uid : ℤ)
    (txt : String) (m : Mach) (hud : txInvUD m.ud) :
    hcore m (debts_edit_received cfg o uid txt m) := by
  unfold debts_edit_received hcore deleteWorking
  simp only [emit, setUD, sendM, pushEffs]
  repeat' split
  all_goals refine ⟨?_, fun hok => ?_, ?_⟩
  all_goals first
    | exact fun t2 ht2 => hud t2 ht2
    | (intro s2 h1 h2; first
        | exact Outcome.noConfusion h1
        | (injection h1 with h1; subst h1; exact ConvState.noConfusion h2))
    | ((intro e he;
        simp only [List.mem_append, List.mem_singleton] at he;
        repeat' rcases he with he | he) <;>
       (first
         | exact hok e he
         | exact ownerScreenEffs_ok o uid e he
         | (rw [he]; trivial)
         | trivial))

theorem txInvTx_expense (t : Tx) (c : Option String) :
    txInvTx { t with ty := some "расход", category := c } := by
  intro h
  have h2 : (some "расход" : Option String) = some "доход" := h
  injection h2 with h3
  exact absurd h3 (by decide)

theorem txInvTx_income (t : Tx) (c : String) :
    txInvTx { t with ty := some "доход", category := some c, paymentType := some c } :=
  fun _ => rfl

theorem txInvTx_amount {t : Tx} (h : txInvTx t) (a : Option ℚ) :
    txInvTx { t with amount := a } := h

theorem txInvTx_payment {t : Tx} (hty : t.ty ≠ some "доход") (p : Option String) :
    txInvTx { t with paymentType := p } := fun h => absurd h hty

theorem choose_type_core (o : Oracle) (uid : ℤ) (c : Cb) (mid : ℕ) (m : Mach) :
    hcore m (choose_type o uid c mid m) := by
  unfold choose_type hcore
  simp only [emit, setUD, sendM, pushEffs]
  repeat' split
  all_goals refine ⟨?_, fun hok => ?_, ?_⟩
  all_goals first
    | (intro t2 ht2; injection ht2 with h3; rw [← h3]; exact txInvTx_empty)
    | (intro s2 h1 h2; first
        | exact Outcome.noConfusion h1
        | (injection h1 with h1; subst h1; exact ConvState.noConfusion h2))
    | ((intro e he;
        simp only [List.mem_append, List.mem_singleton] at he;
        repeat' rcases he with he | he) <;>
       (first | exact hok e he | (rw [he]; trivial) | trivial))

theorem expense_category_core (i : ℕ) (mid : ℕ) (m : Mach) (hud : txInvUD m.ud) :
    hcore m (expense_category i mid m) := by
  unfold expense_category hcore
  simp only [emit, setUD, sendM, pushEffs]
  repeat' split
  all_goals refine ⟨?_, fun hok => ?_, ?_⟩
  all_goals first
    | exact fun t2 ht2 => hud t2 ht2
    | (intro t2 ht2; injection ht2 with h3; rw [← h3]; exact txInvTx_expense _ _)
    | (intro s2 h1 h2; first
        | exact Outcome.noConfusion h1
        | (injection h1 with h1; subst h1; exact ConvState.noConfusion h2))
    | ((intro e he;
        simp only [List.mem_append, List.mem_singleton] at he;
        repeat' rcases he with he | he) <;>
       (first | exact hok e he | (rw [he]; trivial) | trivial))

theorem income_category_core (i : ℕ) (mid : ℕ) (m : Mach) (hud : txInvUD m.ud) :
    hcore m (income_category i mid m) := by
  unfold income_category hcore
  simp only [emit, setUD, sendM, pushEffs]
  repeat' split
  all_goals refine ⟨?_, fun hok => ?_, ?_⟩
  all_goals first
    | exact fun t2 ht2 => hud t2 ht2
    | (intro t2 ht2; injection ht2 with h3; rw [← h3]; exact txInvTx_income _ _)
    | (intro s2 h1 h2; first
        | exact Outcome.noConfusion h1
        | (injection h1 with h1; subst h1; exact ConvState.noConfusion h2))
    | ((intro e he;
        simp only [List.mem_append, List.mem_singleton] at he;
        repeat' rcases he with he | he) <;>
       (first | exact hok e he | (rw [he]; trivial) | trivial))

theorem amount_received_core (cfg : Cfg) (o : Oracle) (uid : ℤ) (txt : String)
    (m : Mach) (hud : txInvUD m.ud) :
    hcore m (amount_received cfg o uid txt m) := by
  unfold amount_received hcore deleteWorking
  simp only [emit, setUD, sendM, pushEffs]
  repeat' split
  all_goals refine ⟨?_, fun hok => ?_, ?_⟩
  all_goals first
    | exact fun t2 ht2 => hud t2 ht2
    | (intro t2 ht2; injection ht2 with h3; rw [← h3];
       exact txInvTx_amount (txInvUD_getD hud) _)
    | (intro s2 h1 h2; first
        | exact Outcome.noConfusion h1
        | (injection h1 with h1; subst h1; exact ConvState.noConfusion h2)
        | (injection h1 with h1; subst h1; intro hc; simp_all))
    | ((intro e he;
        simp only [List.mem_append, List.mem_singleton] at he;
        repeat' rcases he with he | he) <;>
       (first | exact hok e he | (rw [he]; trivial) | trivial))

theorem payment_type_selected_inv (i mid : ℕ) (m : Mach) (hud : txInvUD m.ud)
    (hty : (m.ud.tx.getD emptyTx).ty ≠ some "доход") :
    hcore m (payment_type_selected i mid m) ∧
    ((payment_type_selected i mid m).m.ud.tx.getD emptyTx).ty ≠ some "доход" := by
  unfold payment_type_selected hcore
  simp only [emit, setUD, sendM, pushEffs]
  split
  case h_1 =>
    refine ⟨⟨fun t2 ht2 => hud t2 ht2, fun hok => ?_, ?_⟩, hty⟩
    · exact effsOk_snoc hok trivial
    · intro s2 h1 h2
      exact Outcome.noConfusion h1
  case h_2 pt hpt =>
    refine ⟨⟨?_, fun hok => ?_, ?_⟩, hty⟩
    · intro t2 ht2
      injection ht2 with h3
      rw [← h3]
      exact txInvTx_payment hty _
    · exact effsOk_snoc (effsOk_snoc hok trivial) trivial
    · intro s2 h1 h2
      subst h2
      exact absurd (Outcome.toState.inj h1) (by decide)

theorem comment_skip_core (cfg : Cfg) (o : Oracle) (uid : ℤ) (m : Mach)
    (hud : txInvUD m.ud) : hcore m (comment_skip cfg o uid m) := by
  unfold comment_skip
  simp only [emit, setUD]
  have hq : txInvTx ((withComment "" m.ud).tx.getD emptyTx) :=
    txInvUD_getD (txInvUD_withComment hud "")
  have hs := save_effs cfg o uid
    ⟨withComment "" m.ud, m.nid, m.effs ++ [Eff.ansCb]⟩ hq
  rcases hsp : save_and_finish_ cfg o uid
      ⟨withComment "" m.ud, m.nid, m.effs ++ [Eff.ansCb]⟩ with ⟨m2, exc⟩
  rw [hsp] at hs
  obtain ⟨htx, heff⟩ := hs
  dsimp only at htx heff
  cases exc
  case none =>
    refine ⟨?_, fun hok => ?_, ?_⟩
    · exact txInvUD_of_tx_eq htx (txInvUD_withComment hud "")
    · exact heff (effsOk_snoc hok trivial)
    · intro s2 h1 h2
      subst h2
      exact absurd (Outcome.toState.inj h1) (by decide)
  case some e =>
    refine ⟨?_, fun hok => ?_, ?_⟩
    · exact txInvUD_of_tx_eq htx (txInvUD_withComment hud "")
    · exact heff (effsOk_snoc hok trivial)
    · intro s2 h1 h2
      exact Outcome.noConfusion h1

theorem comment_received_core (cfg : Cfg) (o : Oracle) (uid : ℤ) (txt : String)
    (m : Mach) (hud : txInvUD m.ud) :
    hcore m (comment_received cfg o uid txt m) := by
  unfold comment_received
  split
  case isFalse =>
    refine ⟨fun t2 ht2 => hud t2 ht2, fun hok => ?_, ?_⟩
    · exact effsOk_snoc hok trivial
    · intro s2 h1 h2
      exact Outcome.noConfusion h1
  case isTrue =>
    simp only [emit, setUD, sendM]
    split
    case isTrue =>
      refine ⟨txInvUD_of_tx_eq (deleteWorking_tx _) hud, fun hok => ?_, ?_⟩
      · exact effsOk_snoc (deleteWorking_effs _ (effsOk_snoc hok trivial)) trivial
      · intro s2 h1 h2
        subst h2
        exact absurd (Outcome.toState.inj h1) (by decide)
    case isFalse =>
      have hq : txInvTx ((withComment (pyStrip txt) m.ud).tx.getD emptyTx) :=
        txInvUD_getD (txInvUD_withComment hud _)
      have hs := save_effs cfg o uid
        ⟨withComment (pyStrip txt) m.ud, m.nid, m.effs ++ [Eff.delUserMsg]⟩ hq
      rcases hsp : save_and_finish_ cfg o uid
          ⟨withComment (pyStrip txt) m.ud, m.nid, m.effs ++ [Eff.delUserMsg]⟩
        with ⟨m2, exc⟩
      rw [hsp] at hs
      obtain ⟨htx, heff⟩ := hs
      dsimp only at htx heff
      cases exc
      case none =>
        refine ⟨?_, fun hok => ?_, ?_⟩
        · exact txInvUD_of_tx_eq htx (txInvUD_withComment hud _)
        · exact heff (effsOk_snoc hok trivial)
        · intro s2 h1 h2
          subst h2
          exact absurd (Outcome.toState.inj h1) (by decide)
      case some e =>
        refine ⟨?_, fun hok => ?_, ?_⟩
        · exact txInvUD_of_tx_eq htx (txInvUD_withComment hud _)
        · exact heff (effsOk_snoc hok trivial)
        · intro s2 h1 h2
          exact Outcome.noConfusion h1

theorem cmd_start_inv (cfg : Cfg) (o : Oracle) (uid : ℤ) (m : Mach)
    (hud : txInvUD m.ud) :
    txInvUD (cmd_start cfg o uid m).m.ud ∧
    (effsOk m.effs → effsOk (cmd_start cfg o uid m).m.effs) ∧
    ((cmd_start cfg o uid m).out = Outcome.endConv ∨
      (cmd_start cfg o uid m).m.ud.tx = none) := by
  unfold cmd_start
  simp only [pushEffs, sendM]
  split
  case isTrue =>
    split
    case h_1 e he =>
      exact ⟨txInvUD_none rfl,
        fun hok => effsOk_append hok (mainScreenEffs_ok cfg o uid), Or.inr rfl⟩
    case h_2 p hp =>
      exact ⟨txInvUD_none rfl,
        fun hok => effsOk_snoc (effsOk_append hok (mainScreenEffs_ok cfg o uid)) trivial,
        Or.inr rfl⟩
  case isFalse =>
    exact ⟨fun t2 ht2 => hud t2 ht2, fun hok => effsOk_snoc hok trivial, Or.inl rfl⟩

theorem cmd_help_frame (cfg : Cfg) (uid : ℤ) (m : Mach) :
    (cmd_help cfg uid m).m.ud = m.ud ∧
    (cmd_help cfg uid m).out = Outcome.keep ∧
    (effsOk m.effs → effsOk (cmd_help cfg uid m).m.effs) := by
  unfold cmd_help
  split <;> exact ⟨rfl, rfl, fun hok => effsOk_snoc hok trivial⟩

set_option maxHeartbeats 2000000 in
theorem runHandler_inv (cfg : Cfg) (o : Oracle) (uid : ℤ) (k : HKind)
    (st : ConvState) (ev : Event) (m : Mach)
    (hroute : convRoute st ev = some k)
    (hud : txInvUD m.ud)
    (hty : st = ConvState.stExpPaymentType →
      (m.ud.tx.getD emptyTx).ty ≠ some "доход") :
    hstep st m (runHandler cfg o uid k ev m) := by
  cases k <;> cases ev <;> try (rename_i c mid; cases c)
  all_goals first
    | exact hstep_keep hud hty
    | exact hstep_of_hcore (on_menu_core cfg o uid _ _ _ hud)
        (route_not_payment _ _ _ hroute (by decide))
    | exact hstep_of_hcore (balance_edit_start_core _ _ _ hud)
        (route_not_payment _ _ _ hroute (by decide))
    | exact hstep_of_hcore (choose_type_core o uid _ _ _)
        (route_not_payment _ _ _ hroute (by decide))
    | exact hstep_of_hcore (back_router_core cfg o uid _ _ _ hud)
        (route_not_payment _ _ _ hroute (by decide))
    | exact hstep_of_hcore (expense_category_core _ _ _ hud)
        (route_not_payment _ _ _ hroute (by decide))
    | exact hstep_of_hcore (income_category_core _ _ _ hud)
        (route_not_payment _ _ _ hroute (by decide))
    | exact hstep_of_hcore (amount_received_core cfg o uid _ _ hud)
        (route_not_payment _ _ _ hroute (by decide))
    | exact hstep_of_hcore (comment_skip_core cfg o uid _ hud)
        (route_not_payment _ _ _ hroute (by decide))
    | exact hstep_of_hcore (comment_received_core cfg o uid _ _ hud)
        (route_not_payment _ _ _ hroute (by decide))
    | exact hstep_of_hcore (analysis_period_core _ _ _ hud)
        (route_not_payment _ _ _ hroute (by decide))
    | exact hstep_of_hcore (analysis_type_core cfg o uid _ _ hud)
        (route_not_payment _ _ _ hroute (by decide))
    | exact hstep_of_hcore (special_reports_core cfg o uid _ _ hud)
        (route_not_payment _ _ _ hroute (by decide))
    | exact hstep_of_hcore (balance_edit_received_core cfg o uid _ _ hud)
        (route_not_payment _ _ _ hroute (by decide))
    | exact hstep_of_hcore (debts_choose_type_core o uid _ _ _ hud)
        (route_not_payment _ _ _ hroute (by decide))
    | exact hstep_of_hcore (debts_edit_start_core _ _ hud)
        (route_not_payment _ _ _ hroute (by decide))
    | exact hstep_of_hcore (debts_edit_received_core cfg o uid _ _ hud)
        (route_not_payment _ _ _ hroute (by decide))
    | (obtain ⟨⟨h1, h2, h3⟩, h4⟩ :=
         payment_type_selected_inv _ _ _ hud (hty (route_payment _ _ hroute));
       exact ⟨h1, h2, fun _ => h4⟩)

theorem route_step_inv (cfg : Cfg) (o : Oracle) (uid : ℤ) (ud : UserData)
    (nid : ℕ) (ev : Event) (st : ConvState) (k : HKind)
    (hroute : convRoute st ev = some k)
    (hud : txInvUD ud)
    (hty : st = ConvState.stExpPaymentType →
      (ud.tx.getD emptyTx).ty ≠ some "доход") :
    sessInv (finishRes (some st) (runHandler cfg o uid k ev ⟨ud, nid, []⟩)).1 ∧
    effsOk (finishRes (some st) (runHandler cfg o uid k ev ⟨ud, nid, []⟩)).2 := by
  obtain ⟨h1, h2, h3⟩ := runHandler_inv cfg o uid k st ev ⟨ud, nid, []⟩ hroute hud hty
  refine ⟨⟨?_, ?_⟩, ?_⟩
  · rw [finishRes_ud]
    exact h1
  · rw [finishRes_conv, finishRes_ud]
    exact h3
  · exact finishRes_effs _ _ (h2 effsOk_nil)

theorem dispatch_inv (cfg : Cfg) (o : Oracle) (uid : ℤ) (s : Session) (ev : Event)
    (h : sessInv s) :
    sessInv (dispatch cfg o uid s ev).1 ∧ effsOk (dispatch cfg o uid s ev).2 := by
  obtain ⟨hud, hept⟩ := h
  cases ev with
  | start =>
      simp only [dispatch]
      obtain ⟨h1, h2, h3⟩ := cmd_start_inv cfg o uid ⟨s.ud, s.nid, []⟩ hud
      refine ⟨⟨?_, ?_⟩, ?_⟩
      · rw [finishRes_ud]
        exact h1
      · rw [finishRes_conv, finishRes_ud]
        intro hconv
        rcases h3 with h3 | h3
        · rw [h3] at hconv
          exact Option.noConfusion hconv
        · rw [h3]
          exact fun hc => Option.noConfusion hc
      · exact finishRes_effs _ _ (h2 effsOk_nil)
  | helpCmd =>
      simp only [dispatch]
      obtain ⟨h1, h2, h3⟩ := cmd_help_frame cfg uid ⟨s.ud, s.nid, []⟩
      refine ⟨⟨?_, ?_⟩, ?_⟩
      · rw [finishRes_ud, h1]
        exact hud
      · rw [finishRes_conv, finishRes_ud, h2, h1]
        exact hept
      · exact finishRes_effs _ _ (h3 effsOk_nil)
  | cb c mid =>
      simp only [dispatch]
      rcases hconv : s.conv with _ | st
      · exact ⟨⟨hud, hept⟩, effsOk_nil⟩
      · dsimp only
        rcases hroute : convRoute st (.cb c mid) with _ | k
        · exact ⟨⟨hud, hept⟩, effsOk_nil⟩
        · exact route_step_inv cfg o uid s.ud s.nid _ st k hroute hud
            (fun hst => hept (hconv.trans (congrArg some hst)))
  | msg t =>
      simp only [dispatch]
      rcases hconv : s.conv with _ | st
      · exact ⟨⟨hud, hept⟩, effsOk_nil⟩
      · dsimp only
        rcases hroute : convRoute st (.msg t) with _ | k
        · exact ⟨⟨hud, hept⟩, effsOk_nil⟩
        · exact route_step_inv cfg o uid s.ud s.nid _ st k hroute hud
            (fun hst => hept (hconv.trans (congrArg some hst)))

theorem sessInv_init : sessInv initSession := by
  constructor
  · intro t ht
    exact Option.noConfusion ht
  · intro hc
    exact Option.noConfusion hc

theorem runTrace_inv (cfg : Cfg) (uid : ℤ) (evs : List (Oracle × Event))
    (s : Session) (h : sessInv s) :
    sessInv (runTrace cfg uid s evs).1 ∧ effsOk (runTrace cfg uid s evs).2 := by
  induction evs generalizing s with
  | nil => exact ⟨h, effsOk_nil⟩
  | cons p rest ih =>
      obtain ⟨o, ev⟩ := p
      obtain ⟨hd1, hd2⟩ := dispatch_inv cfg o uid s ev h
      obtain ⟨ht1, ht2⟩ := ih (dispatch cfg o uid s ev).1 hd1
      exact ⟨ht1, effsOk_append hd2 ht2⟩

theorem c10_add_mem :
    Eff.gas (GasCmd.add (some "доход") (some "Services") (some 2500)
      (some "Services") "Acme LLC") 1 ∈
      (runTrace cfgDemo 1 initSession c10Events).2 := by
  simp +decide [c10Events, runTrace, dispatch, convRoute, runHandler,
    cmd_start, on_menu, choose_type, income_category, amount_received,
    comment_received, withComment, save_and_finish_, mainScreenRes,
    mainScreenEffs, ownerScreenRes, ownerScreenEffs, employeeScreenRes, pushEffs,
    emit, setUD, sendM, deleteWorking, finishRes, gasRequest,
    okOracle, demoCats, noData, cfgDemo, is_allowed, is_owner, initSession, emptyUD,
    emptyTx, parse_amount_eq_2500]

/-- C10: in every event trace from a fresh session, every `add` gateway
call whose type field is `"доход"` (the source's income literal) carries a
`payment_type` equal to its `category`: `income_category` stores the
selected category in both `tx["category"]` and `tx["payment_type"]`
(main.py 602–603), and no later step of the income flow changes either
field before `save_and_finish_` submits the draft. -/
theorem income_add_payment_eq_category (cfg : Cfg) (uid : ℤ)
    (evs : List (Oracle × Event)) (ty cat pt : Option String) (amt : Option ℚ)
    (cm : String) (u : ℤ)
    (hmem : Eff.gas (GasCmd.add ty cat amt pt cm) u ∈
      (runTrace cfg uid initSession evs).2)
    (hty : ty = some "доход") : pt = cat :=
  (runTrace_inv cfg uid evs initSession sessInv_init).2 _ hmem hty

/-- Witness for C10: the completed demo income flow (category "Services",
amount "2500", comment "Acme LLC") issues an `add` call with income type,
and the theorem applied at it yields payment type = category. -/
theorem income_add_payment_eq_category_witness :
    Eff.gas (GasCmd.add (some "доход") (some "Services") (some 2500)
      (some "Services") "Acme LLC") 1 ∈
      (runTrace cfgDemo 1 initSession c10Events).2 ∧
    (some "Services" : Option String) = some "Services" :=
  ⟨c10_add_mem,
   income_add_payment_eq_category cfgDemo 1 c10Events (some "доход")
     (some "Services") (some "Services") (some 2500) "Acme LLC" 1
     c10_add_mem rfl⟩
